import Mathlib

/-!
Verification of the ART dex bytecode method verifier (code-flow pass) against its
natural-language specification.  The definitions below are a shallow embedding of
the code in src/runtime/verifier/method_verifier.cc and
src/runtime/verifier/reg_type_cache.cc.  Parts of the program whose sources are
not in the repository snapshot (reg_type.h / reg_type.cc and register_line.h /
register_line.cc) are modelled from the specification; each such definition is
marked with a doc comment beginning with "Modelled from the spec".
-/

namespace Art

/-! ### Register type kinds

Kind names follow the RegType::Kind enumerators referenced from
method_verifier.cc (for example in DetermineCat1Constant, lines 5122-5143). -/

/-- Modelled from the spec: the RegType kind enumeration (reg_type.h is not in
src/).  Kinds listed in spec section 3: Undefined, Conflict, Zero/Null, the
primitive categories, integer-constant categories by numeric range, wide
constant halves, and the reference flavors. -/
inductive RegKind where
  | undefined
  | conflict
  | zero
  | booleanConstant
  | positiveByteConstant
  | positiveShortConstant
  | charConstant
  | byteConstant
  | shortConstant
  | integerConstant
  | constantLo
  | constantHi
  | boolean
  | byte
  | short
  | char
  | integer
  | float
  | longLo
  | longHi
  | doubleLo
  | doubleHi
  | javaLangObject
  | reference
  | unresolvedReference
  | unresolvedMerged
  | uninitializedReference
  | uninitializedThis
  deriving DecidableEq, Repr

namespace RegKind

/-- Cat-1 integer-family constant kinds (value-range categories). -/
def isIntConstant : RegKind → Bool
  | zero | booleanConstant | positiveByteConstant | positiveShortConstant
  | charConstant | byteConstant | shortConstant | integerConstant => true
  | _ => false

/-- Non-constant cat-1 integer-family primitive kinds. -/
def isIntPrimitive : RegKind → Bool
  | boolean | byte | short | char | integer => true
  | _ => false

/-- Category-1 kinds, as used by the RETURN case of CodeFlowVerifyInstruction
(method_verifier.cc line 2579, return_type.IsCategory1Types()). -/
def isCategory1 : RegKind → Bool
  | zero | booleanConstant | positiveByteConstant | positiveShortConstant
  | charConstant | byteConstant | shortConstant | integerConstant
  | boolean | byte | short | char | integer | float => true
  | _ => false

/-- Reference kinds (including null and unresolved flavors). -/
def isReferenceKind : RegKind → Bool
  | zero | javaLangObject | reference | unresolvedReference | unresolvedMerged
  | uninitializedReference | uninitializedThis => true
  | _ => false

/-- Non-zero reference kinds (RegType::IsNonZeroReferenceTypes). -/
def isNonZeroReferenceKind : RegKind → Bool
  | javaLangObject | reference | unresolvedReference | unresolvedMerged
  | uninitializedReference | uninitializedThis => true
  | _ => false

/-- Uninitialized kinds (RegType::IsUninitializedTypes). -/
def isUninitializedKind : RegKind → Bool
  | uninitializedReference | uninitializedThis => true
  | _ => false

/-- Unresolved kinds (RegType::IsUnresolvedTypes). -/
def isUnresolvedKind : RegKind → Bool
  | unresolvedReference | unresolvedMerged => true
  | _ => false

end RegKind

/-- Verdict of the kind-level assignability pre-check
(RegType::Assignability in reg_type.h). -/
inductive Assignability where
  | assignable
  | notAssignable
  | narrowingConversion
  | reference
  deriving DecidableEq, Repr

/-- Widening between non-constant cat-1 integer primitives: a source register
kind fits a target kind without narrowing.  boolean fits everything in the
family, byte fits short and int, short and char fit int only. -/
def intPrimWidens (lhs rhs : RegKind) : Bool :=
  (lhs == rhs) || (rhs == .boolean) ||
  (rhs == .byte && (lhs == .short || lhs == .integer)) ||
  ((rhs == .short || rhs == .char) && lhs == .integer)

/-- Modelled from the spec: RegType::AssignabilityFrom (reg_type.h is not in
src/).  Spec section 4.1: category match is required for primitives; integer
constants are untyped cat-1 values that satisfy any cat-1 integer (or float)
check; assigning a wider non-constant integer primitive to a narrower declared
type is a narrowing conversion (disallowed by the general assignability rule,
spec section 9); null is assignable to every reference type; any reference is
assignable to java.lang.Object; other reference pairs need the class-hierarchy
walk (verdict reference); uninitialized types match only themselves. -/
def assignabilityFrom (lhs rhs : RegKind) : Assignability :=
  if lhs.isIntPrimitive then
    if rhs.isIntConstant then .assignable
    else if rhs.isIntPrimitive then
      if intPrimWidens lhs rhs then .assignable else .narrowingConversion
    else .notAssignable
  else if lhs == .float then
    if rhs.isIntConstant || rhs == .float then .assignable else .notAssignable
  else if lhs == .longLo then
    if rhs == .constantLo || rhs == .longLo then .assignable else .notAssignable
  else if lhs == .longHi then
    if rhs == .constantHi || rhs == .longHi then .assignable else .notAssignable
  else if lhs == .doubleLo then
    if rhs == .constantLo || rhs == .doubleLo then .assignable else .notAssignable
  else if lhs == .doubleHi then
    if rhs == .constantHi || rhs == .doubleHi then .assignable else .notAssignable
  else if lhs == .javaLangObject then
    if rhs.isReferenceKind && !rhs.isUninitializedKind then .assignable
    else .notAssignable
  else if lhs.isNonZeroReferenceKind && !lhs.isUninitializedKind then
    if rhs == .zero then .assignable
    else if rhs.isNonZeroReferenceKind && !rhs.isUninitializedKind then .reference
    else .notAssignable
  else .notAssignable

/-! ### Failure recording (MethodVerifier::Fail, method_verifier.cc 5532-5577) -/

/-- The VerifyError enumeration values reachable from the embedded slice. -/
inductive VerifyError where
  | badClassHard
  | noClass
  | unresolvedTypeCheck
  | instantiation
  | locking
  | runtimeThrow
  deriving DecidableEq, Repr

/-- Failure accumulator: the ordered failure list plus the pending-hard flag
(flags_.have_pending_hard_failure_). -/
structure FailState where
  hard : Bool
  failures : List VerifyError
  deriving DecidableEq, Repr

def emptyFail : FailState := { hard := false, failures := [] }

/-- MethodVerifier::Fail (method_verifier.cc 5532-5577): records the error in
the ordered failure list; only VERIFY_ERROR_BAD_CLASS_HARD (with a pending
exception context) sets the pending-hard-failure flag, every other error kind
is soft (routed through PotentiallyMarkRuntimeThrow). -/
def fail (e : VerifyError) (st : FailState) (pendingExc : Bool := true) : FailState :=
  { hard := st.hard || (pendingExc && e == .badClassHard),
    failures := st.failures ++ [e] }

theorem fail_hard_mono (e : VerifyError) (st : FailState) (p : Bool) :
    st.hard = true → (fail e st p).hard = true := by
  intro h; simp [fail, h]

/-! ### The RETURN transfer function (claim C5)

Embedding of the Instruction::RETURN case of CodeFlowVerifyInstruction
(method_verifier.cc 2575-2598) together with VerifyRegisterType
(method_verifier.cc 859-891) at the kind level. -/

/-- MethodVerifier::DetermineCat1Constant (method_verifier.cc 5122-5143). -/
def determineCat1Constant (value : Int) : RegKind :=
  if value < -32768 then .integerConstant
  else if value < -128 then .shortConstant
  else if value < 0 then .byteConstant
  else if value == 0 then .zero
  else if value == 1 then .booleanConstant
  else if value < 128 then .positiveByteConstant
  else if value < 32768 then .positiveShortConstant
  else if value < 65536 then .charConstant
  else .integerConstant

/-- Kind-level IsAssignableFrom: the Equals short-circuit of
MethodVerifier::AssignableFrom (method_verifier.cc 5617) followed by the
kind-table verdict; the reference verdict needs the class walk and cannot
succeed at the bare kind level (claim C5 only exercises primitives). -/
def kindAssignable (lhs rhs : RegKind) : Bool :=
  lhs == rhs || assignabilityFrom lhs rhs == .assignable

/-- VerifyRegisterType(vsrc, check_type) (method_verifier.cc 859-891) at the
kind level: on an assignability failure, classify the error exactly as the
source does (non-reference or uninitialized operands are hard failures,
unresolved operands are soft unresolved-type-check failures). -/
def verifyRegisterTypeKind (checkType srcType : RegKind) (st : FailState) :
    Bool × FailState :=
  if kindAssignable checkType srcType then (true, st)
  else
    let e :=
      if !checkType.isNonZeroReferenceKind || !srcType.isNonZeroReferenceKind then
        VerifyError.badClassHard
      else if checkType.isUninitializedKind || srcType.isUninitializedKind then
        VerifyError.badClassHard
      else if checkType.isUnresolvedKind || srcType.isUnresolvedKind then
        VerifyError.unresolvedTypeCheck
      else VerifyError.badClassHard
    (false, fail e st)

/-- The Instruction::RETURN case (method_verifier.cc 2575-2598): require a
category-1 declared return type, then check the returned register against the
declared type, except that a byte-kind source is tolerated for a boolean
return and an integer-kind source is tolerated for boolean, byte, short and
char returns (the use_src special case, lines 2587-2590). -/
def codeFlowReturnCat1 (returnType srcType : RegKind) (st : FailState) : FailState :=
  if !returnType.isCategory1 then fail .badClassHard st
  else
    let useSrc :=
      (returnType == .boolean && srcType == .byte) ||
      ((returnType == .boolean || returnType == .byte ||
        returnType == .short || returnType == .char) && srcType == .integer)
    (verifyRegisterTypeKind (if useSrc then srcType else returnType) srcType st).2

/-- Claim C5: for the single-width return instruction, a method declared to
return boolean whose returned register holds a precise byte-range constant
type verifies successfully (no failure is recorded), while one whose returned
register holds a long constant (kind ConstantLo) records a hard failure; a
byte-kind source is tolerated for a boolean return, and an Integer-kind source
is tolerated for boolean, byte, short and char declared return types. -/
theorem return_narrowing_tolerance (st : FailState) (v : Int)
    (hv1 : -128 ≤ v) (hv2 : v ≤ 127) (rt : RegKind)
    (hrt : rt = .boolean ∨ rt = .byte ∨ rt = .short ∨ rt = .char) :
    codeFlowReturnCat1 .boolean (determineCat1Constant v) st = st ∧
    (codeFlowReturnCat1 .boolean .constantLo st).hard = true ∧
    codeFlowReturnCat1 .boolean .byte st = st ∧
    codeFlowReturnCat1 rt .integer st = st := by
  refine ⟨?_, by simp [codeFlowReturnCat1, verifyRegisterTypeKind, kindAssignable,
    assignabilityFrom, fail, RegKind.isCategory1, RegKind.isIntPrimitive,
    RegKind.isIntConstant, RegKind.isNonZeroReferenceKind], rfl, ?_⟩
  · have h : determineCat1Constant v = RegKind.byteConstant ∨
        determineCat1Constant v = RegKind.zero ∨
        determineCat1Constant v = RegKind.booleanConstant ∨
        determineCat1Constant v = RegKind.positiveByteConstant := by
      unfold determineCat1Constant
      split_ifs with h1 h2 h3 h4 h5 h6 h7 h8 <;> first | omega | simp
    rcases h with h | h | h | h <;> rw [h] <;> rfl
  · rcases hrt with h | h | h | h <;> rw [h] <;> rfl

/-- Witness for the claim C5 theorem at the concrete constant 5 and return
type char. -/
theorem return_narrowing_tolerance_witness :
    codeFlowReturnCat1 .boolean (determineCat1Constant 5) emptyFail = emptyFail ∧
    (codeFlowReturnCat1 .boolean .constantLo emptyFail).hard = true ∧
    codeFlowReturnCat1 .boolean .byte emptyFail = emptyFail ∧
    codeFlowReturnCat1 .char .integer emptyFail = emptyFail :=
  return_narrowing_tolerance emptyFail 5 (by decide) (by decide) .char
    (by simp)

/-! ### AssignableFrom over full register types (claim C8)

Embedding of MethodVerifier::AssignableFrom (method_verifier.cc 5616-5681)
and the RETURN_OBJECT caller (method_verifier.cc 2615-2650). -/

/-- The class-resolution collaborator facts consumed by AssignableFrom
(spec section 6): class-hierarchy assignability, interface-ness, and the
array-class facts used by the Object-array special cases. -/
structure ClassEnv where
  isa : Nat → Nat → Bool
  isInterface : Nat → Bool
  isObjectArrayClass : Nat → Bool
  isJavaLangObjectArrayClass : Nat → Bool

/-- A register type with enough payload for AssignableFrom: a primitive or
constant kind, java.lang.Object, a resolved reference class, or the two
unresolved flavors.  The unresolved-merged flavor records whether it is an
object-array type. -/
inductive RType where
  | prim (k : RegKind)
  | javaLangObject
  | reference (c : Nat)
  | unresolvedReference (descriptor : String)
  | unresolvedMerged (idx : Nat) (objArray : Bool)
  deriving DecidableEq, Repr

namespace RType

def kind : RType → RegKind
  | .prim k => k
  | .javaLangObject => .javaLangObject
  | .reference _ => .reference
  | .unresolvedReference _ => .unresolvedReference
  | .unresolvedMerged _ _ => .unresolvedMerged

/-- RegType::HasClass: resolved reference flavors carry a class. -/
def hasClass : RType → Bool
  | .javaLangObject => true
  | .reference _ => true
  | _ => false

/-- The carried class id (only meaningful when hasClass; java.lang.Object is
handled before any class-id use in AssignableFrom). -/
def classId : RType → Nat
  | .reference c => c
  | _ => 0

/-- RegType::IsUnresolvedTypes. -/
def isUnresolvedTypes : RType → Bool
  | .unresolvedReference _ => true
  | .unresolvedMerged _ _ => true
  | _ => false

/-- RegType::IsJavaLangObjectArray. -/
def isJavaLangObjectArray (env : ClassEnv) : RType → Bool
  | .reference c => env.isJavaLangObjectArrayClass c
  | _ => false

/-- RegType::IsObjectArrayTypes: a (possibly unresolved) array of references. -/
def isObjectArrayTypes (env : ClassEnv) : RType → Bool
  | .reference c => env.isObjectArrayClass c
  | .unresolvedReference d => d.startsWith "[L" || d.startsWith "[["
  | .unresolvedMerged _ objArray => objArray
  | _ => false

end RType

/-- MethodVerifier::AssignableFrom (method_verifier.cc 5616-5681): equality
short-circuit, then the kind-table verdict; in the reference case, a
non-strict check against a resolved interface succeeds, Object[] accepts all
reference arrays, a resolved target never accepts plain java.lang.Object, two
resolved classes use the class-hierarchy walk, and every remaining pair — in
particular any pair with an unresolved side — yields false ("unresolved types
are only assignable for null and equality", line 5676). -/
def assignableFrom (env : ClassEnv) (lhs rhs : RType) (strict : Bool) : Bool :=
  if lhs = rhs then true
  else
    match assignabilityFrom lhs.kind rhs.kind with
    | .assignable => true
    | .notAssignable => false
    | .narrowingConversion => false
    | .reference =>
      if !strict && !lhs.isUnresolvedTypes && env.isInterface lhs.classId then
        true
      else if lhs.isJavaLangObjectArray env then rhs.isObjectArrayTypes env
      else if lhs.hasClass && rhs == .javaLangObject then false
      else if lhs.hasClass && rhs.hasClass then env.isa lhs.classId rhs.classId
      else false

/-- The Instruction::RETURN_OBJECT case (method_verifier.cc 2615-2650):
undefined, conflict, uninitialized and non-reference returned registers are
hard failures; a failed assignability check is a soft unresolved-type-check
failure when either side is unresolved and a hard failure otherwise. -/
def codeFlowReturnObject (env : ClassEnv) (returnType regType : RType)
    (st : FailState) : FailState :=
  if !returnType.kind.isReferenceKind then fail .badClassHard st
  else if regType.kind == .undefined then fail .badClassHard st
  else if regType.kind == .conflict then fail .badClassHard st
  else if regType.kind.isUninitializedKind then fail .badClassHard st
  else if !regType.kind.isReferenceKind then fail .badClassHard st
  else if !assignableFrom env returnType regType false then
    if regType.isUnresolvedTypes || returnType.isUnresolvedTypes then
      fail .unresolvedTypeCheck st
    else fail .badClassHard st
  else st

/-- Claim C8 counterexample: the claim states that AssignableFrom succeeds
when either side is unresolved ("treated as unknown, assume OK"), but on a
resolved non-interface expected class and an unresolved actual type the code
returns false — the assume-OK treatment lives in the callers, not in
AssignableFrom itself. -/
theorem assignableFrom_unresolved_counterexample :
    (RType.unresolvedMerged 0 false).isUnresolvedTypes = true ∧
    assignableFrom
      ⟨fun _ _ => false, fun _ => false, fun _ => false, fun _ => false⟩
      (RType.reference 0) (RType.unresolvedMerged 0 false) false = false :=
  ⟨rfl, rfl⟩

/-- Between two non-zero, non-uninitialized reference kinds (with the target
not java.lang.Object) the kind table always answers with the reference
verdict, deferring to the class-hierarchy walk. -/
theorem assignabilityFrom_ref_verdict (k k2 : RegKind)
    (h1 : k.isNonZeroReferenceKind = true) (h2 : k.isUninitializedKind = false)
    (h3 : k ≠ .javaLangObject)
    (h4 : k2.isNonZeroReferenceKind = true)
    (h5 : k2.isUninitializedKind = false) :
    assignabilityFrom k k2 = .reference := by
  cases k <;>
    simp_all [RegKind.isNonZeroReferenceKind, RegKind.isUninitializedKind] <;>
    cases k2 <;>
    simp_all [RegKind.isNonZeroReferenceKind, RegKind.isUninitializedKind,
      assignabilityFrom, RegKind.isIntPrimitive]

/-- Claim C8 (amended): AssignableFrom succeeds on equal types; for two
distinct resolved classes (expected neither an interface under a non-strict
check nor Object[]) it is exactly the class-hierarchy subtype walk; a
non-strict check against a resolved interface always succeeds; when either
side is unresolved (and the types are not equal) it returns false, and the
RETURN_OBJECT caller then records a soft unresolved-type-check failure
requiring a runtime re-check, while a failed check between resolved classes
is recorded as a hard failure. -/
theorem assignableFrom_amended (env : ClassEnv) (c d : Nat)
    (t lhs rhs rhs2 : RType) (st : FailState)
    (hcd : c ≠ d)
    (hci : env.isInterface c = false)
    (hca : env.isJavaLangObjectArrayClass c = false)
    (hru : rhs.isUnresolvedTypes = true)
    (hlu : lhs.isUnresolvedTypes = true)
    (hlr : lhs ≠ rhs2)
    (hr2k : rhs2.kind.isNonZeroReferenceKind = true)
    (hr2un : rhs2.kind.isUninitializedKind = false) :
    assignableFrom env t t false = true ∧
    assignableFrom env (.reference c) (.reference d) false = env.isa c d ∧
    (∀ e, env.isInterface e = true →
      assignableFrom env (.reference e) rhs2 false = true) ∧
    assignableFrom env (.reference c) rhs false = false ∧
    assignableFrom env lhs rhs2 false = false ∧
    codeFlowReturnObject env (.reference c) rhs st = fail .unresolvedTypeCheck st ∧
    codeFlowReturnObject env (.reference c) (.reference d) st =
      (if env.isa c d then st else fail .badClassHard st) := by
  have hrhs_cases : (∃ s, rhs = .unresolvedReference s) ∨
      (∃ i b, rhs = .unresolvedMerged i b) := by
    cases rhs <;> simp_all [RType.isUnresolvedTypes]
  have hlhs_cases : (∃ s, lhs = .unresolvedReference s) ∨
      (∃ i b, lhs = .unresolvedMerged i b) := by
    cases lhs <;> simp_all [RType.isUnresolvedTypes]
  have hnejlo : (RType.reference c).kind ≠ RegKind.javaLangObject := by
    simp [RType.kind]
  have hrefref : assignableFrom env (.reference c) (.reference d) false =
      env.isa c d := by
    have hv : assignabilityFrom (RType.reference c).kind (RType.reference d).kind
        = .reference :=
      assignabilityFrom_ref_verdict _ _ rfl rfl hnejlo rfl rfl
    have hne : RType.reference c ≠ RType.reference d := by
      simp [hcd]
    simp [assignableFrom, hne, hv, RType.isUnresolvedTypes, RType.classId,
      RType.isJavaLangObjectArray, RType.hasClass, hci, hca]
  have hrefunres : assignableFrom env (.reference c) rhs false = false := by
    rcases hrhs_cases with ⟨s, h⟩ | ⟨i, b, h⟩
    · subst h
      have hv : assignabilityFrom (RType.reference c).kind
          (RType.unresolvedReference s).kind = .reference :=
        assignabilityFrom_ref_verdict _ _ rfl rfl hnejlo rfl rfl
      simp [assignableFrom, hv, RType.isUnresolvedTypes, RType.classId,
        RType.isJavaLangObjectArray, RType.hasClass, hci, hca]
    · subst h
      have hv : assignabilityFrom (RType.reference c).kind
          (RType.unresolvedMerged i b).kind = .reference :=
        assignabilityFrom_ref_verdict _ _ rfl rfl hnejlo rfl rfl
      simp [assignableFrom, hv, RType.isUnresolvedTypes, RType.classId,
        RType.isJavaLangObjectArray, RType.hasClass, hci, hca]
  refine ⟨by simp [assignableFrom], hrefref, ?_, hrefunres, ?_, ?_, ?_⟩
  · intro e he
    by_cases heq : RType.reference e = rhs2
    · simp [assignableFrom, heq]
    · have hv : assignabilityFrom (RType.reference e).kind rhs2.kind = .reference :=
        assignabilityFrom_ref_verdict _ _ rfl rfl (by simp [RType.kind]) hr2k hr2un
      simp [assignableFrom, heq, hv, RType.isUnresolvedTypes, RType.classId, he]
  · rcases hlhs_cases with ⟨s, h⟩ | ⟨i, b, h⟩
    · subst h
      have hv : assignabilityFrom (RType.unresolvedReference s).kind rhs2.kind
          = .reference :=
        assignabilityFrom_ref_verdict _ _ rfl rfl (by simp [RType.kind]) hr2k hr2un
      simp [assignableFrom, hlr, hv, RType.isUnresolvedTypes,
        RType.isJavaLangObjectArray, RType.hasClass]
    · subst h
      have hv : assignabilityFrom (RType.unresolvedMerged i b).kind rhs2.kind
          = .reference :=
        assignabilityFrom_ref_verdict _ _ rfl rfl (by simp [RType.kind]) hr2k hr2un
      simp [assignableFrom, hlr, hv, RType.isUnresolvedTypes,
        RType.isJavaLangObjectArray, RType.hasClass]
  · rcases hrhs_cases with ⟨s, h⟩ | ⟨i, b, h⟩ <;> subst h <;>
      simp_all [codeFlowReturnObject, RType.kind, RegKind.isReferenceKind,
        RegKind.isUninitializedKind, RType.isUnresolvedTypes]
  · rcases hisa : env.isa c d with _ | _ <;>
      simp_all [codeFlowReturnObject, RType.kind, RegKind.isReferenceKind,
        RegKind.isUninitializedKind, RType.isUnresolvedTypes]

/-- Witness for the claim C8 amended theorem at concrete classes 0 and 1,
an unresolved-merged actual type, and java.lang.Object as the generic
reference operand. -/
theorem assignableFrom_amended_witness :
    assignableFrom
        ⟨fun _ _ => true, fun _ => false, fun _ => false, fun _ => false⟩
        (.prim .integer) (.prim .integer) false = true ∧
    assignableFrom
        ⟨fun _ _ => true, fun _ => false, fun _ => false, fun _ => false⟩
        (RType.reference 0) (RType.reference 1) false =
      (fun _ _ => true : Nat → Nat → Bool) 0 1 ∧
    (∀ e, (fun _ => false : Nat → Bool) e = true →
      assignableFrom
        ⟨fun _ _ => true, fun _ => false, fun _ => false, fun _ => false⟩
        (RType.reference e) RType.javaLangObject false = true) ∧
    assignableFrom
        ⟨fun _ _ => true, fun _ => false, fun _ => false, fun _ => false⟩
        (RType.reference 0) (RType.unresolvedMerged 0 false) false = false ∧
    assignableFrom
        ⟨fun _ _ => true, fun _ => false, fun _ => false, fun _ => false⟩
        (RType.unresolvedMerged 1 false) RType.javaLangObject false = false ∧
    codeFlowReturnObject
        ⟨fun _ _ => true, fun _ => false, fun _ => false, fun _ => false⟩
        (RType.reference 0) (RType.unresolvedMerged 0 false) emptyFail =
      fail .unresolvedTypeCheck emptyFail ∧
    codeFlowReturnObject
        ⟨fun _ _ => true, fun _ => false, fun _ => false, fun _ => false⟩
        (RType.reference 0) (RType.reference 1) emptyFail =
      (if (fun _ _ => true : Nat → Nat → Bool) 0 1 then emptyFail
       else fail .badClassHard emptyFail) :=
  assignableFrom_amended
    ⟨fun _ _ => true, fun _ => false, fun _ => false, fun _ => false⟩ 0 1
    (.prim .integer) (.unresolvedMerged 1 false) (.unresolvedMerged 0 false)
    .javaLangObject emptyFail
    (by decide) rfl rfl rfl rfl (by decide) rfl rfl

/-! ### RegTypeCache interning (claim C6)

Embedding of RegTypeCache::From (reg_type_cache.cc 166-204),
RegTypeCache::Uninitialized (reg_type_cache.cc 395-429) and
RegTypeCache::FromCat1NonSmallConstant (reg_type_cache.cc 509-525).
The model covers the dynamically added entries — indices at or above
kNumPrimitivesAndSmallConstants — which are exactly the entries these
three scans inspect. -/

/-- A dynamically allocated RegTypeCache entry. -/
inductive CacheEntry where
  | referenceEntry (descriptor : String) (klass : Nat)
  | unresolvedReferenceEntry (descriptor : String)
  | uninitializedReferenceEntry (descriptor : String) (klass : Nat) (allocPc : Nat)
  | unresolvedUninitializedEntry (descriptor : String) (allocPc : Nat)
  | preciseConstEntry (value : Int)
  | impreciseConstEntry (value : Int)
  deriving DecidableEq, Repr

namespace CacheEntry

/-- The entry's stored descriptor_ (empty for constants), compared by
RegTypeCache::MatchDescriptor (reg_type_cache.cc 134-141). -/
def descriptorOf : CacheEntry → String
  | .referenceEntry d _ => d
  | .unresolvedReferenceEntry d => d
  | .uninitializedReferenceEntry d _ _ => d
  | .unresolvedUninitializedEntry d _ => d
  | .preciseConstEntry _ => ""
  | .impreciseConstEntry _ => ""

end CacheEntry

/-- The dynamic part of the entries_ array. -/
structure CacheState where
  entries : List CacheEntry
  deriving DecidableEq, Repr

/-- Linear scan returning the first entry satisfying the predicate together
with its index (the loops over entries_ starting at
kNumPrimitivesAndSmallConstants). -/
def findWithIdx (p : CacheEntry → Bool) : List CacheEntry → Nat →
    Option (Nat × CacheEntry)
  | [], _ => none
  | e :: rest, base => if p e then some (base, e) else findWithIdx p rest (base + 1)

/-- Result of RegTypeCache::From: a cache entry (by index) or the Conflict
fallback for a broken descriptor. -/
inductive FromResult where
  | entry (idx : Nat) (e : CacheEntry)
  | conflictType
  deriving DecidableEq, Repr

/-- RegTypeCache::From (reg_type_cache.cc 166-204): scan the dynamic entries
for one whose stored descriptor equals the requested one; on a miss, consult
the class-resolution collaborator, then intern a resolved reference entry, or
an unresolved reference entry when the descriptor is at least well-formed, or
return Conflict without interning anything. -/
def cacheFrom (resolve : String → Option Nat) (valid : String → Bool)
    (d : String) (s : CacheState) : FromResult × CacheState :=
  match findWithIdx (fun e => e.descriptorOf == d) s.entries 0 with
  | some (i, e) => (.entry i e, s)
  | none =>
    match resolve d with
    | some k =>
        (.entry s.entries.length (.referenceEntry d k),
         ⟨s.entries ++ [.referenceEntry d k]⟩)
    | none =>
        if valid d then
          (.entry s.entries.length (.unresolvedReferenceEntry d),
           ⟨s.entries ++ [.unresolvedReferenceEntry d]⟩)
        else (.conflictType, s)

/-- RegTypeCache::Uninitialized (reg_type_cache.cc 395-429): for an unresolved
underlying type, match unresolved-uninitialized entries by allocation pc and
descriptor; for a resolved one, match uninitialized-reference entries by
allocation pc and class; intern a new entry on a miss. -/
def cacheUninitialized (unresolved : Bool) (d : String) (klass : Nat)
    (allocPc : Nat) (s : CacheState) : (Nat × CacheEntry) × CacheState :=
  let p : CacheEntry → Bool := fun e =>
    if unresolved then
      match e with
      | .unresolvedUninitializedEntry d2 pc2 => pc2 == allocPc && d2 == d
      | _ => false
    else
      match e with
      | .uninitializedReferenceEntry _ k2 pc2 => pc2 == allocPc && k2 == klass
      | _ => false
  match findWithIdx p s.entries 0 with
  | some r => (r, s)
  | none =>
    let e : CacheEntry :=
      if unresolved then .unresolvedUninitializedEntry d allocPc
      else .uninitializedReferenceEntry d klass allocPc
    ((s.entries.length, e), ⟨s.entries ++ [e]⟩)

/-- RegTypeCache::FromCat1NonSmallConstant (reg_type_cache.cc 509-525): match
class-less cat-1 constant entries by precision and value; intern a precise or
imprecise constant entry on a miss. -/
def cacheFromCat1NonSmallConstant (value : Int) (precise : Bool)
    (s : CacheState) : (Nat × CacheEntry) × CacheState :=
  let p : CacheEntry → Bool := fun e =>
    match e with
    | .preciseConstEntry w => precise && w == value
    | .impreciseConstEntry w => !precise && w == value
    | _ => false
  match findWithIdx p s.entries 0 with
  | some r => (r, s)
  | none =>
    let e : CacheEntry :=
      if precise then .preciseConstEntry value else .impreciseConstEntry value
    ((s.entries.length, e), ⟨s.entries ++ [e]⟩)

/-- A failed scan of the whole list finds an appended matching element at
index base + length. -/
theorem findWithIdx_append (p : CacheEntry → Bool) (e : CacheEntry)
    (l : List CacheEntry) (base : Nat) (h : findWithIdx p l base = none)
    (he : p e = true) :
    findWithIdx p (l ++ [e]) base = some (base + l.length, e) := by
  induction l generalizing base with
  | nil => simp [findWithIdx, he]
  | cons a rest ih =>
      by_cases ha : p a
      · simp [findWithIdx, ha] at h
      · simp only [findWithIdx, ha, if_neg, Bool.false_eq_true, if_false] at h
        have hstep : findWithIdx p ((a :: rest) ++ [e]) base
            = findWithIdx p (rest ++ [e]) (base + 1) := by
          simp [findWithIdx, ha]
        rw [hstep, ih (base + 1) h]
        congr 1
        simp [List.length_cons]
        omega

/-- The scan-then-intern shape shared by the RegTypeCache lookup routines. -/
def scanOrAdd (p : CacheEntry → Bool) (mk : CacheEntry) (s : CacheState) :
    (Nat × CacheEntry) × CacheState :=
  match findWithIdx p s.entries 0 with
  | some r => (r, s)
  | none => ((s.entries.length, mk), ⟨s.entries ++ [mk]⟩)

/-- Repeating a scan-then-intern request returns the same entry and leaves
the cache unchanged. -/
theorem scanOrAdd_idem (p : CacheEntry → Bool) (mk : CacheEntry)
    (hmk : p mk = true) (s : CacheState) :
    scanOrAdd p mk (scanOrAdd p mk s).2 = scanOrAdd p mk s := by
  unfold scanOrAdd
  rcases h : findWithIdx p s.entries 0 with _ | r
  · have h2 := findWithIdx_append p mk s.entries 0 h hmk
    simp [h, h2]
  · simp [h]

/-- Claim C6: the RegTypeCache interns every RegType — repeating a request
for the same semantic type and precision (same descriptor for references,
same value and precision for cat-1 constants, same underlying type and
allocation pc for uninitialized types) returns the same cache entry at the
same index and leaves the cache unchanged, so entry-id equality coincides
with semantic type equality. -/
theorem regTypeCache_interning :
    (∀ (resolve : String → Option Nat) (valid : String → Bool) (d : String)
        (s : CacheState),
      cacheFrom resolve valid d (cacheFrom resolve valid d s).2 =
        cacheFrom resolve valid d s) ∧
    (∀ (u : Bool) (d : String) (k pc : Nat) (s : CacheState),
      cacheUninitialized u d k pc (cacheUninitialized u d k pc s).2 =
        cacheUninitialized u d k pc s) ∧
    (∀ (v : Int) (p : Bool) (s : CacheState),
      cacheFromCat1NonSmallConstant v p (cacheFromCat1NonSmallConstant v p s).2 =
        cacheFromCat1NonSmallConstant v p s) := by
  refine ⟨?_, ?_, ?_⟩
  · intro resolve valid d s
    rcases h : findWithIdx (fun e => e.descriptorOf == d) s.entries 0 with _ | ⟨i, e⟩
    · rcases hr : resolve d with _ | k
      · by_cases hv : valid d
        · have hm : (fun e => CacheEntry.descriptorOf e == d)
              (CacheEntry.unresolvedReferenceEntry d) = true := by
            simp [CacheEntry.descriptorOf]
          have h2 := findWithIdx_append _ _ s.entries 0 h hm
          simp [cacheFrom, h, hr, hv, h2]
        · simp [cacheFrom, h, hr, hv]
      · have hm : (fun e => CacheEntry.descriptorOf e == d)
            (CacheEntry.referenceEntry d k) = true := by
          simp [CacheEntry.descriptorOf]
        have h2 := findWithIdx_append _ _ s.entries 0 h hm
        simp [cacheFrom, h, hr, h2]
    · simp [cacheFrom, h]
  · intro u d k pc s
    rw [show ∀ s2, cacheUninitialized u d k pc s2 = scanOrAdd
        (fun e =>
          if u then
            match e with
            | .unresolvedUninitializedEntry d2 pc2 => pc2 == pc && d2 == d
            | _ => false
          else
            match e with
            | .uninitializedReferenceEntry _ k2 pc2 => pc2 == pc && k2 == k
            | _ => false)
        (if u then .unresolvedUninitializedEntry d pc
         else .uninitializedReferenceEntry d k pc) s2 from fun _ => rfl]
    exact scanOrAdd_idem _ _ (by cases u <;> simp) s
  · intro v p s
    rw [show ∀ s2, cacheFromCat1NonSmallConstant v p s2 = scanOrAdd
        (fun e =>
          match e with
          | .preciseConstEntry w => p && w == v
          | .impreciseConstEntry w => !p && w == v
          | _ => false)
        (if p then .preciseConstEntry v else .impreciseConstEntry v) s2
        from fun _ => rfl]
    exact scanOrAdd_idem _ _ (by cases p <;> simp) s

/-! ### Static pre-pass per-instruction checks (claim C7)

Embedding of the Check helpers called from VerifyInstruction
(method_verifier.cc 1654-1787): register bounds (294-311), constant-pool
index bounds (315-476), vararg register checks (503-537), the new-instance
and new-array type constraints (1790-1834), and branch-target validity
(1885-1954).  Each check returns its pass/fail result together with the
updated failure record. -/

/-- CheckRegisterIndex (method_verifier.cc 294-301). -/
def checkRegisterIndex (registersSize idx : Nat) (st : FailState) :
    Bool × FailState :=
  if registersSize ≤ idx then (false, fail .badClassHard st) else (true, st)

/-- CheckWideRegisterIndex (method_verifier.cc 304-311). -/
def checkWideRegisterIndex (registersSize idx : Nat) (st : FailState) :
    Bool × FailState :=
  if registersSize ≤ idx + 1 then (false, fail .badClassHard st) else (true, st)

/-- The uniform constant-pool bound checks: CheckCallSiteIndex,
CheckMethodIndex, CheckMethodHandleIndex, CheckPrototypeIndex,
CheckStringIndex, CheckTypeIndex (method_verifier.cc 315-476) and the bound
part of CheckFieldIndex (330-333). -/
def checkPoolIndex (tableSize idx : Nat) (st : FailState) : Bool × FailState :=
  if tableSize ≤ idx then (false, fail .badClassHard st) else (true, st)

/-- The descriptor part of CheckFieldIndex (method_verifier.cc 403-417): the
first character of the field type descriptor must be one of the two
characters permitted for the opcode's access type. -/
def checkFieldIndex (numFieldIds idx : Nat) (descFirst : Nat → Char)
    (permitted : Char × Char) (st : FailState) : Bool × FailState :=
  if numFieldIds ≤ idx then (false, fail .badClassHard st)
  else if descFirst idx ≠ permitted.1 && descFirst idx ≠ permitted.2 then
    (false, fail .badClassHard st)
  else (true, st)

/-- CheckNewInstance (method_verifier.cc 1790-1807): a type-index bound
check, then the class descriptor must name a class (start with L); a
new-instance of java.lang.Class additionally records a soft
VERIFY_ERROR_INSTANTIATION failure but the check still passes. -/
def checkNewInstance (typeIdsSize : Nat) (descOf : Nat → String) (idx : Nat)
    (st : FailState) : Bool × FailState :=
  if typeIdsSize ≤ idx then (false, fail .badClassHard st)
  else if (descOf idx).take 1 ≠ "L" then (false, fail .badClassHard st)
  else if descOf idx = "Ljava/lang/Class;" then (true, fail .instantiation st)
  else (true, st)

/-- CheckNewArray (method_verifier.cc 1810-1834): a type-index bound check,
then the descriptor must be an array type of at most 255 dimensions. -/
def checkNewArray (typeIdsSize : Nat) (descOf : Nat → String) (idx : Nat)
    (st : FailState) : Bool × FailState :=
  if typeIdsSize ≤ idx then (false, fail .badClassHard st)
  else
    let brackets := ((descOf idx).toList.takeWhile (fun c => c = '[')).length
    if brackets = 0 then (false, fail .badClassHard st)
    else if 255 < brackets then (false, fail .badClassHard st)
    else (true, st)

/-- CheckVarArgRegs (method_verifier.cc 503-522) together with the vararg
count guard of VerifyInstruction (1754-1763): the count must be at most 5
(kMaxVarArgRegs, and nonzero for the NonZero forms) and every listed register
must be in bounds. -/
def checkVarArgRegs (registersSize : Nat) (args : List Nat) (vA : Nat)
    (nonZeroForm : Bool) (st : FailState) : Bool × FailState :=
  if (nonZeroForm && vA == 0) || 5 < vA then (false, fail .badClassHard st)
  else if (args.take vA).any (fun r => registersSize ≤ r) then
    (false, fail .badClassHard st)
  else (true, st)

/-- CheckVarArgRangeRegs (method_verifier.cc 527-537) together with the
count guard of VerifyInstruction (1768-1775). -/
def checkVarArgRangeRegs (registersSize vA vC : Nat) (nonZeroForm : Bool)
    (st : FailState) : Bool × FailState :=
  if nonZeroForm && vA == 0 then (false, fail .badClassHard st)
  else if registersSize < vA + vC then (false, fail .badClassHard st)
  else (true, st)

/-- Wrap a mathematical integer to a 32-bit two's-complement value. -/
def toInt32 (x : Int) : Int := (x + 2 ^ 31) % 2 ^ 32 - 2 ^ 31

/-- CheckBranchTarget (method_verifier.cc 1885-1914): with the branch offset
already decoded (GetBranchOffset, 1917-1954), reject a zero offset unless the
opcode allows branching to itself, reject 32-bit overflow of the absolute
target, and require the target to be an in-bounds instruction start.  On
success, the returned index is the target to be flagged as a branch target. -/
def checkBranchTarget (insnCount : Nat) (isOpcodeAt : Nat → Bool)
    (curOffset : Nat) (offset : Int) (selfOkay : Bool) (st : FailState) :
    Bool × FailState × Option Nat :=
  if !selfOkay && offset == 0 then (false, fail .badClassHard st, none)
  else if toInt32 ((curOffset : Int) + offset) ≠ (curOffset : Int) + offset then
    (false, fail .badClassHard st, none)
  else if (curOffset : Int) + offset < 0 ||
      (insnCount : Int) ≤ (curOffset : Int) + offset ||
      !isOpcodeAt ((curOffset : Int) + offset).toNat then
    (false, fail .badClassHard st, none)
  else (true, st, some ((curOffset : Int) + offset).toNat)

/-- Decode an int32 little-endian pair of 16-bit code units. -/
def u16pairAt (insns : Nat → Nat) (k : Nat) : Int :=
  toInt32 (insns k + insns (k + 1) * 2 ^ 16)

/-- The ascending-key loop of CheckSwitchTargets for sparse switches
(method_verifier.cc 2030-2042), iterating with an explicit countdown. -/
def sparseKeysSortedFrom (insns : Nat → Nat) (tbl : Nat) :
    Nat → Nat → Int → Bool
  | 0, _, _ => true
  | remaining + 1, targ, last =>
      let key := u16pairAt insns (tbl + 2 + 2 * targ)
      if key ≤ last then false
      else sparseKeysSortedFrom insns tbl remaining (targ + 1) key

/-- The target-validation loop of CheckSwitchTargets (method_verifier.cc
2046-2060), accumulating the branch targets to flag. -/
def switchTargetsCheckFrom (insnCount : Nat) (insns : Nat → Nat)
    (isOpcodeAt : Nat → Bool) (curOffset tbl targetsOffset : Nat)
    (st : FailState) : Nat → Nat → List Nat → Bool × FailState × List Nat
  | 0, _, acc => (true, st, acc)
  | remaining + 1, targ, acc =>
      let off := u16pairAt insns (tbl + targetsOffset + 2 * targ)
      let abs : Int := (curOffset : Int) + off
      if abs < 0 || (insnCount : Int) ≤ abs || !isOpcodeAt abs.toNat then
        (false, fail .badClassHard st, acc)
      else
        switchTargetsCheckFrom insnCount insns isOpcodeAt curOffset tbl
          targetsOffset st remaining (targ + 1) (acc ++ [abs.toNat])

/-- The decoded switch-data offset (insns[1] | insns[2] << 16 as int32,
method_verifier.cc 1962). -/
def switchOffsetAt (insns : Nat → Nat) (curOffset : Nat) : Int :=
  u16pairAt insns (curOffset + 1)

/-- Absolute code-unit index of the switch table. -/
def switchTableAt (insns : Nat → Nat) (curOffset : Nat) : Nat :=
  ((curOffset : Int) + switchOffsetAt insns curOffset).toNat

/-- The switch entry count (switch_insns[1], method_verifier.cc 1989). -/
def switchCountAt (insns : Nat → Nat) (tbl : Nat) : Nat := insns (tbl + 1)

/-- Offset of the target words inside the switch table
(method_verifier.cc 1992-2000). -/
def switchTargetsOffsetOf (isPacked : Bool) (count : Nat) : Nat :=
  if isPacked then 4 else 2 + 2 * count

/-- The key checks of CheckSwitchTargets (method_verifier.cc 2017-2044):
packed switches must not overflow int32 keys, sparse switches need strictly
ascending keys. -/
def switchKeysOk (insns : Nat → Nat) (tbl count : Nat) (isPacked : Bool) :
    Bool :=
  if 1 < count then
    if isPacked then
      decide (u16pairAt insns (tbl + 2) ≤ 2 ^ 31 - 1 - ((count : Int) - 1))
    else
      sparseKeysSortedFrom insns tbl (count - 1) 1 (u16pairAt insns (tbl + 2))
  else true

/-- CheckSwitchTargets (method_verifier.cc 1957-2062): validate the switch
table position, alignment (an even code-unit index), signature and size, the
key ordering, and every target; valid targets are returned for branch-target
flagging. -/
def checkSwitchTargets (insnCount : Nat) (insns : Nat → Nat)
    (isOpcodeAt : Nat → Bool) (isPacked : Bool) (curOffset : Nat)
    (st : FailState) : Bool × FailState × List Nat :=
  if (curOffset : Int) + switchOffsetAt insns curOffset < 0 ||
      (insnCount : Int) < (curOffset : Int) + switchOffsetAt insns curOffset + 2
  then (false, fail .badClassHard st, [])
  else if switchTableAt insns curOffset % 2 ≠ 0 then
    (false, fail .badClassHard st, [])
  else if !isOpcodeAt (switchTableAt insns curOffset) then
    (false, fail .badClassHard st, [])
  else if insns (switchTableAt insns curOffset) ≠
      (if isPacked then 0x100 else 0x200) then
    (false, fail .badClassHard st, [])
  else if insnCount < switchTableAt insns curOffset +
      (switchTargetsOffsetOf isPacked
          (switchCountAt insns (switchTableAt insns curOffset)) +
        switchCountAt insns (switchTableAt insns curOffset) * 2) then
    (false, fail .badClassHard st, [])
  else if !switchKeysOk insns (switchTableAt insns curOffset)
      (switchCountAt insns (switchTableAt insns curOffset)) isPacked then
    (false, fail .badClassHard st, [])
  else
    switchTargetsCheckFrom insnCount insns isOpcodeAt curOffset
      (switchTableAt insns curOffset)
      (switchTargetsOffsetOf isPacked
        (switchCountAt insns (switchTableAt insns curOffset)))
      st (switchCountAt insns (switchTableAt insns curOffset)) 0 []

/-- Claim C7 counterexample: the claim says every failure raised by the
static pre-pass per-instruction checks is a hard, unrecoverable rejection,
but CheckNewInstance on a java.lang.Class type raises a soft
VERIFY_ERROR_INSTANTIATION failure while passing the check, so the method is
not rejected and no hard failure is recorded. -/
theorem prepass_soft_instantiation_counterexample :
    (checkNewInstance 1 (fun _ => "Ljava/lang/Class;") 0 emptyFail).1 = true ∧
    (checkNewInstance 1 (fun _ => "Ljava/lang/Class;") 0 emptyFail).2.hard
      = false ∧
    (checkNewInstance 1 (fun _ => "Ljava/lang/Class;") 0 emptyFail).2.failures
      = [VerifyError.instantiation] :=
  ⟨rfl, rfl, rfl⟩

theorem fail_badClassHard_hard (st : FailState) :
    (fail .badClassHard st).hard = true := by simp [fail]

/-- A hard-failing branch guard: if the else-branch of a check preserves the
hard-on-fail property, so does the whole conditional. -/
theorem ite_check_hard {c : Prop} [Decidable c] (st : FailState)
    (rest : Bool × FailState) (hrest : rest.1 = false → rest.2.hard = true) :
    (if c then ((false, fail .badClassHard st) : Bool × FailState) else rest).1
        = false →
    (if c then ((false, fail .badClassHard st) : Bool × FailState) else rest).2.hard
        = true := by
  by_cases hc : c
  · intro _; simp [hc, fail]
  · simp only [if_neg hc]; exact hrest

/-- The three-component variant for checks that also report branch targets
to flag. -/
theorem ite_check3_hard {α : Type} {c : Prop} [Decidable c] (st : FailState)
    (x : α) (rest : Bool × FailState × α)
    (hrest : rest.1 = false → rest.2.1.hard = true) :
    (if c then ((false, fail .badClassHard st, x) : Bool × FailState × α)
     else rest).1 = false →
    (if c then ((false, fail .badClassHard st, x) : Bool × FailState × α)
     else rest).2.1.hard = true := by
  by_cases hc : c
  · intro _; simp [hc, fail]
  · simp only [if_neg hc]; exact hrest

theorem switchTargetsCheckFrom_hard (insnCount : Nat) (insns : Nat → Nat)
    (isOpcodeAt : Nat → Bool) (curOffset tbl targetsOffset : Nat)
    (st : FailState) :
    ∀ remaining targ acc,
      (switchTargetsCheckFrom insnCount insns isOpcodeAt curOffset tbl
        targetsOffset st remaining targ acc).1 = false →
      (switchTargetsCheckFrom insnCount insns isOpcodeAt curOffset tbl
        targetsOffset st remaining targ acc).2.1.hard = true := by
  intro remaining
  induction remaining with
  | zero => intro targ acc h; simp [switchTargetsCheckFrom] at h
  | succ r ih =>
      intro targ acc
      rw [switchTargetsCheckFrom]
      exact ite_check3_hard st acc _ (ih (targ + 1) _)

set_option maxRecDepth 4000 in
/-- Claim C7 (amended): every static pre-pass per-instruction check that
fails — rejecting the instruction and hence the method — records a hard,
unrecoverable failure; however, not every failure raised by these checks is
hard: the new-instance check can record a soft VERIFY_ERROR_INSTANTIATION
failure (new-instance on java.lang.Class) while still passing. -/
theorem prepass_checks_hard_amended :
    (∀ rs idx st, (checkRegisterIndex rs idx st).1 = false →
      (checkRegisterIndex rs idx st).2.hard = true) ∧
    (∀ rs idx st, (checkWideRegisterIndex rs idx st).1 = false →
      (checkWideRegisterIndex rs idx st).2.hard = true) ∧
    (∀ ts idx st, (checkPoolIndex ts idx st).1 = false →
      (checkPoolIndex ts idx st).2.hard = true) ∧
    (∀ n idx df perm st, (checkFieldIndex n idx df perm st).1 = false →
      (checkFieldIndex n idx df perm st).2.hard = true) ∧
    (∀ ts d idx st, (checkNewInstance ts d idx st).1 = false →
      (checkNewInstance ts d idx st).2.hard = true) ∧
    (∀ ts d idx st, (checkNewArray ts d idx st).1 = false →
      (checkNewArray ts d idx st).2.hard = true) ∧
    (∀ rs args vA nz st, (checkVarArgRegs rs args vA nz st).1 = false →
      (checkVarArgRegs rs args vA nz st).2.hard = true) ∧
    (∀ rs vA vC nz st, (checkVarArgRangeRegs rs vA vC nz st).1 = false →
      (checkVarArgRangeRegs rs vA vC nz st).2.hard = true) ∧
    (∀ ic io co off so st, (checkBranchTarget ic io co off so st).1 = false →
      (checkBranchTarget ic io co off so st).2.1.hard = true) ∧
    (∀ ic insns io ip co st, (checkSwitchTargets ic insns io ip co st).1 = false →
      (checkSwitchTargets ic insns io ip co st).2.1.hard = true) := by
  refine ⟨?_, ?_, ?_, ?_, ?_, ?_, ?_, ?_, ?_, ?_⟩
  · intro rs idx st
    unfold checkRegisterIndex
    exact ite_check_hard st _ (by intro h; simp at h)
  · intro rs idx st
    unfold checkWideRegisterIndex
    exact ite_check_hard st _ (by intro h; simp at h)
  · intro ts idx st
    unfold checkPoolIndex
    exact ite_check_hard st _ (by intro h; simp at h)
  · intro n idx df perm st
    unfold checkFieldIndex
    exact ite_check_hard st _ (ite_check_hard st _ (by intro h; simp at h))
  · intro ts d idx st
    unfold checkNewInstance
    exact ite_check_hard st _ (ite_check_hard st _
      (by intro h; split at h <;> simp at h))
  · intro ts d idx st
    unfold checkNewArray
    exact ite_check_hard st _ (ite_check_hard st _ (ite_check_hard st _
      (by intro h; simp at h)))
  · intro rs args vA nz st
    unfold checkVarArgRegs
    exact ite_check_hard st _ (ite_check_hard st _ (by intro h; simp at h))
  · intro rs vA vC nz st
    unfold checkVarArgRangeRegs
    exact ite_check_hard st _ (ite_check_hard st _ (by intro h; simp at h))
  · intro ic io co off so st
    unfold checkBranchTarget
    exact ite_check3_hard st none _ (ite_check3_hard st none _
      (ite_check3_hard st none _ (by intro h; simp at h)))
  · intro ic insns io ip co st
    unfold checkSwitchTargets
    exact ite_check3_hard st [] _ (ite_check3_hard st [] _
      (ite_check3_hard st [] _ (ite_check3_hard st [] _
        (ite_check3_hard st [] _ (ite_check3_hard st [] _
          (switchTargetsCheckFrom_hard _ _ _ _ _ _ _ _ _ _))))))

/-- Witness for the claim C7 amended theorem: an out-of-range register index
and a self-branch with zero offset are both rejected with hard failures. -/
theorem prepass_checks_hard_witness :
    (checkRegisterIndex 1 5 emptyFail).2.hard = true ∧
    (checkBranchTarget 10 (fun _ => false) 0 0 false emptyFail).2.1.hard = true :=
  ⟨prepass_checks_hard_amended.1 1 5 emptyFail rfl,
   prepass_checks_hard_amended.2.2.2.2.2.2.2.2.1 10 (fun _ => false) 0 0 false
     emptyFail rfl⟩


/-! ### The code-flow fixed-point driver (claims C1, C2, C3, C4, C9, C10)

Embedding of MethodVerifier::CodeFlowVerifyMethod (method_verifier.cc
2287-2360), MethodVerifier::CodeFlowVerifyInstruction (2444-3943, with the
roughly 200-case transfer-function switch collapsed to a function parameter
and the two monitor opcodes, which the driver itself special-cases, kept
explicit), AdjustReturnLine (2413-2442) and MethodVerifier::UpdateRegisters
(5059-5109).  The driver is parametric in the register-line type; the
RegisterLine operations themselves (register_line.h/cc are not in src/) are
a record of parameters. -/

/-- Per-pc instruction flags (InstructionFlags). -/
structure InsnFlags where
  inTry : Bool := false
  branchTarget : Bool := false
  retInsn : Bool := false
  visited : Bool := false
  changed : Bool := false
  deriving DecidableEq, Repr

/-- Static per-opcode flags (Instruction::kThrow, kBranch, kSwitch,
kContinue, kReturn). -/
structure OpFlags where
  canThrow : Bool := false
  branch : Bool := false
  switchBr : Bool := false
  cont : Bool := false
  ret : Bool := false
  deriving DecidableEq, Repr

/-- The return-instruction shapes AdjustReturnLine distinguishes
(method_verifier.cc 2418-2441). -/
inductive RetShape where
  | retVoid
  | retSingle (vA : Nat)
  | retWide (vA : Nat)
  deriving DecidableEq, Repr

/-- Modelled from the spec: the RegisterLine operations the driver calls
(register_line.h/cc are not in src/) as a record of parameters: merge-into
(spec 4.1), the monitor stack (spec 3: an ordered sequence of held locks),
the dead-register conflict sweeps used for return lines, and the
constructor-return check.  mergeOk is false when MergeRegisters raised a
hard failure; ctorReturnOk is false when CheckConstructorReturn failed. -/
structure LineOps (Line : Type) where
  merge : Line → Line → Line
  mergeOk : Line → Line → Bool
  monitorDepth : Line → Nat
  pushMonitor : Nat → Nat → Line → Line
  popMonitor : Nat → Line → Line
  markAllConflicts : Line → Line
  markAllConflictsExcept : Nat → Line → Line
  markAllConflictsExceptWide : Nat → Line → Line
  ctorReturnOk : Line → Bool

/-- AdjustReturnLine (method_verifier.cc 2413-2442): for return-void in an
instance constructor, check the uninitialized-this discipline, then collapse
registers to Conflict; single and wide returns keep only the returned
operand.  The Bool is false when CheckConstructorReturn hard-failed. -/
def adjustReturnLine {Line : Type} (ops : LineOps Line) (isInstanceCtor : Bool)
    (shape : RetShape) (line : Line) : Line × Bool :=
  match shape with
  | .retVoid =>
      (ops.markAllConflicts line,
       if isInstanceCtor then ops.ctorReturnOk line else true)
  | .retSingle vA => (ops.markAllConflictsExcept vA line, true)
  | .retWide vA => (ops.markAllConflictsExceptWide vA line, true)

/-- An exception handler covering an instruction: its entry pc and whether
it acts as a catch-all (invalid type index, or the type resolves to
java.lang.Throwable; method_verifier.cc 3821-3838). -/
structure Handler where
  addr : Nat
  catchAll : Bool
  deriving DecidableEq, Repr

/-- Result of the transfer-function dispatch: the updated working line, the
optional peephole fork lines for the branch and fallthrough edges
(branch_line / fallthrough_line, method_verifier.cc 2497-2498), and the
failure conditions the dispatch may set. -/
structure TransferResult (Line : Type) where
  workLine : Line
  branchLine : Option Line := none
  fallthroughLine : Option Line := none
  hardFail : Bool := false
  runtimeThrow : Bool := false

/-- Instruction kinds: the monitor opcodes are kept explicit because the
claims single them out (method_verifier.cc 2726-2817); every other opcode
acts through its transfer function. -/
inductive InsnKind (Line : Type) where
  | monitorEnter (reg : Nat)
  | monitorExit (reg : Nat)
  | other (transfer : Line → TransferResult Line)

def InsnKind.isMonEnter {Line : Type} : InsnKind Line → Bool
  | .monitorEnter _ => true
  | _ => false

/-- The static method data the driver consumes: instruction sizes, decoded
successor structure, per-opcode flags, the exception table view, and the
pre-pass outputs. -/
structure MethodModel (Line : Type) where
  insnsSize : Nat
  sizeAt : Nat → Nat
  opFlagsAt : Nat → OpFlags
  kindAt : Nat → InsnKind Line
  compatThrowAt : Nat → Bool
  branchTargetAt : Nat → Nat
  switchTargetsAt : Nat → List Nat
  handlersAt : Nat → List Handler
  retShapeAt : Nat → RetShape
  isInstanceCtor : Bool
  notMoveExcAt : Nat → Bool
  notMoveExcOrResultAt : Nat → Bool
  hasSlotAt : Nat → Bool

/-- The mutable state of the code-flow pass: per-pc flags, the saved-line
table (reg_table_), the working line, the pre-instruction snapshot line
(saved_line_), and the failure record. -/
structure FlowState (Line : Type) where
  flags : Nat → InsnFlags
  table : Nat → Line
  workLine : Line
  savedLine : Line
  failures : FailState

/-- GetModifiableInstructionFlags(pc).SetChanged(). -/
def setChanged {Line : Type} (st : FlowState Line) (pc : Nat) : FlowState Line :=
  { st with flags := Function.update st.flags pc { st.flags pc with changed := true } }

/-- MethodVerifier::UpdateRegisters (method_verifier.cc 5059-5109): on the
first visit of a pc, copy the merge line into the saved line (adjusting
return lines and verifying the monitor stack is empty for returns) and mark
the pc changed; otherwise merge into the saved line and mark changed only
when the merge altered it.  Returns the new state, whether to continue
(false on a pending hard failure), and the possibly updated merge line
(copied back when update_merge_line is set and the merge changed it). -/
def updateRegisters {Line : Type} [DecidableEq Line] (M : MethodModel Line)
    (ops : LineOps Line) (st : FlowState Line) (nextInsn : Nat)
    (mergeLine : Line) (updateMergeLine : Bool) :
    FlowState Line × Bool × Line :=
  let fl := st.flags nextInsn
  if !(fl.visited || fl.changed) then
    if fl.retInsn then
      let failures1 := if ops.monitorDepth mergeLine == 0 then st.failures
                       else fail .locking st.failures
      let adj := adjustReturnLine ops M.isInstanceCtor (M.retShapeAt nextInsn)
                   mergeLine
      let failures2 := if adj.2 then failures1 else fail .badClassHard failures1
      let st2 := { st with table := Function.update st.table nextInsn adj.1, failures := failures2 }
      if failures2.hard then (st2, false, mergeLine)
      else (setChanged st2 nextInsn, true, mergeLine)
    else
      let st2 := { st with table := Function.update st.table nextInsn mergeLine }
      (setChanged st2 nextInsn, true, mergeLine)
  else
    let old := st.table nextInsn
    let merged := ops.merge old mergeLine
    let failures2 := if ops.mergeOk old mergeLine then st.failures
                     else fail .badClassHard st.failures
    let st2 := { st with table := Function.update st.table nextInsn merged, failures := failures2 }
    if failures2.hard then (st2, false, mergeLine)
    else if merged = old then (st2, true, mergeLine)
    else (setChanged st2 nextInsn, true,
          if updateMergeLine then merged else mergeLine)

/-- The branch-edge propagation of CodeFlowVerifyInstruction
(method_verifier.cc 3744-3766): validate the target, then merge the branch
fork line (or the working line) into it. -/
def branchPhase {Line : Type} [DecidableEq Line] (M : MethodModel Line)
    (ops : LineOps Line) (st : FlowState Line) (i : Nat) (opFlags : OpFlags)
    (branchLine : Option Line) : FlowState Line × Bool :=
  if opFlags.branch then
    if !M.notMoveExcOrResultAt (M.branchTargetAt i) then
      ({ st with failures := fail .badClassHard st.failures }, false)
    else
      let r := updateRegisters M ops st (M.branchTargetAt i)
                 (branchLine.getD st.workLine) false
      (r.1, r.2.1)
  else (st, true)

/-- The per-target loop of the switch propagation (method_verifier.cc
3790-3805), merging the working line into every table target in order. -/
def switchUpdates {Line : Type} [DecidableEq Line] (M : MethodModel Line)
    (ops : LineOps Line) : FlowState Line → List Nat → FlowState Line × Bool
  | st, [] => (st, true)
  | st, t :: rest =>
      if !M.notMoveExcOrResultAt t then
        ({ st with failures := fail .badClassHard st.failures }, false)
      else
        let r := updateRegisters M ops st t st.workLine false
        if r.2.1 then switchUpdates M ops r.1 rest else (r.1, false)

/-- The switch propagation of CodeFlowVerifyInstruction (3774-3806). -/
def switchPhase {Line : Type} [DecidableEq Line] (M : MethodModel Line)
    (ops : LineOps Line) (st : FlowState Line) (i : Nat) (opFlags : OpFlags) :
    FlowState Line × Bool :=
  if opFlags.switchBr then switchUpdates M ops st (M.switchTargetsAt i)
  else (st, true)

/-- The per-handler loop of the exception-edge propagation
(method_verifier.cc 3821-3851): merge the pre-instruction snapshot
(saved_line_) into every covering handler entry, in handler-table order. -/
def handlerUpdates {Line : Type} [DecidableEq Line] (M : MethodModel Line)
    (ops : LineOps Line) : FlowState Line → List Handler →
    FlowState Line × Bool
  | st, [] => (st, true)
  | st, h :: rest =>
      let r := updateRegisters M ops st h.addr st.savedLine false
      if r.2.1 then handlerUpdates M ops r.1 rest else (r.1, false)

/-- The exception-edge propagation of CodeFlowVerifyInstruction (3808-3869):
run only for instructions that can throw and sit in a try block; after the
handler merges, a held monitor requires a catch-all handler unless the
instruction is the monitor-enter that just pushed onto an empty stack. -/
def excPhase {Line : Type} [DecidableEq Line] (M : MethodModel Line)
    (ops : LineOps Line) (st : FlowState Line) (i : Nat) (opFlags : OpFlags)
    (isMonEnter : Bool) : FlowState Line × Bool :=
  if opFlags.canThrow && (st.flags i).inTry then
    let r := handlerUpdates M ops st (M.handlersAt i)
    if !r.2 then r
    else
      let st2 := r.1
      let hasCatchAll := (M.handlersAt i).any (fun h => h.catchAll)
      if 0 < ops.monitorDepth st2.workLine && !hasCatchAll then
        if isMonEnter && ops.monitorDepth st2.workLine == 1 then (st2, true)
        else ({ st2 with failures := fail .badClassHard st2.failures }, false)
      else (st2, true)
  else (st, true)

/-- The tail of the fallthrough propagation (method_verifier.cc 3897-3911):
merge into the next pc when it has a saved-line slot, otherwise just mark it
changed. -/
def continueTail {Line : Type} [DecidableEq Line] (M : MethodModel Line)
    (ops : LineOps Line) (st : FlowState Line) (next : Nat) :
    FlowState Line × Bool :=
  if M.hasSlotAt next then
    let r := updateRegisters M ops st next st.workLine true
    if r.2.1 then ({ r.1 with workLine := r.2.2 }, true) else (r.1, false)
  else (setChanged st next, true)

/-- The fallthrough propagation of CodeFlowVerifyInstruction (3871-3912):
bounds and move-exception checks on the next pc, adoption of the peephole
fallthrough fork, the return-line adjustment when the next instruction is a
return, then the merge or changed-mark. -/
def continuePhase {Line : Type} [DecidableEq Line] (M : MethodModel Line)
    (ops : LineOps Line) (st : FlowState Line) (i : Nat) (opFlags : OpFlags)
    (fallLine : Option Line) : FlowState Line × Bool :=
  if opFlags.cont then
    if M.insnsSize ≤ i + M.sizeAt i then
      ({ st with failures := fail .badClassHard st.failures }, false)
    else if !M.notMoveExcAt (i + M.sizeAt i) then
      ({ st with failures := fail .badClassHard st.failures }, false)
    else
      let st1 := match fallLine with
                 | some l => { st with workLine := l }
                 | none => st
      if (st1.flags (i + M.sizeAt i)).retInsn then
        let adj := adjustReturnLine ops M.isInstanceCtor
          (M.retShapeAt (i + M.sizeAt i)) st1.workLine
        let f2 := if adj.2 then st1.failures else fail .badClassHard st1.failures
        let st2 := { st1 with workLine := adj.1, failures := f2 }
        continueTail M ops st2 (i + M.sizeAt i)
      else continueTail M ops st1 (i + M.sizeAt i)
  else (st, true)

/-- Transfer-function dispatch: monitor-enter pushes onto the lock stack
(method_verifier.cc 2726-2727); monitor-exit strips kThrow from the opcode
flags and pops (2794-2817); everything else runs its transfer function. -/
def dispatchInsn {Line : Type} (ops : LineOps Line) (k : InsnKind Line)
    (i : Nat) (opFlags : OpFlags) (wl : Line) : OpFlags × TransferResult Line :=
  match k with
  | .monitorEnter r => (opFlags, { workLine := ops.pushMonitor r i wl })
  | .monitorExit r =>
      ({ opFlags with canThrow := false }, { workLine := ops.popMonitor r wl })
  | .other t => (opFlags, t wl)

/-- Result of processing one instruction. -/
inductive StepResult (Line : Type) where
  | ok (st : FlowState Line) (startGuess : Nat)
  | failed (st : FlowState Line)

/-- MethodVerifier::CodeFlowVerifyInstruction (method_verifier.cc 2444-3943):
take the pre-instruction snapshot when the instruction can throw inside a
try block (2483-2488), dispatch, stop on a pending hard failure (3698),
elevate the flags to throw-only on a pending runtime-throw failure
(3715-3722), propagate to branch, switch, exception-handler and fallthrough
successors in that order, verify the monitor stack is empty at returns
(3914-3917), and compute the next start-guess cursor (3919-3931). -/
def codeFlowVerifyInstruction {Line : Type} [DecidableEq Line]
    (M : MethodModel Line) (ops : LineOps Line) (st : FlowState Line)
    (i : Nat) (startGuess : Nat) : StepResult Line :=
  let opFlags0 := M.opFlagsAt i
  let st := if (opFlags0.canThrow || M.compatThrowAt i) && (st.flags i).inTry
            then { st with savedLine := st.workLine } else st
  let d := dispatchInsn ops (M.kindAt i) i opFlags0 st.workLine
  let res := d.2
  let f1 := if res.hardFail then fail .badClassHard st.failures else st.failures
  let st := { st with workLine := res.workLine, failures := f1 }
  if st.failures.hard then .failed st
  else
    let opFlags := if res.runtimeThrow then
        ({ canThrow := true } : OpFlags)
      else d.1
    let p1 := branchPhase M ops st i opFlags res.branchLine
    if !p1.2 then .failed p1.1
    else
      let p2 := switchPhase M ops p1.1 i opFlags
      if !p2.2 then .failed p2.1
      else
        let p3 := excPhase M ops p2.1 i opFlags (M.kindAt i).isMonEnter
        if !p3.2 then .failed p3.1
        else
          let p4 := continuePhase M ops p3.1 i opFlags res.fallthroughLine
          if !p4.2 then .failed p4.1
          else
            let st4 := p4.1
            let st5 := if opFlags.ret && ops.monitorDepth st4.workLine != 0
                       then { st4 with failures := fail .locking st4.failures }
                       else st4
            let st6 := if res.runtimeThrow then
                { st5 with failures := fail .runtimeThrow st5.failures false }
              else st5
            let g := if opFlags.cont then i + M.sizeAt i
                     else if opFlags.branch then M.branchTargetAt i
                     else startGuess
            .ok st6 g

/-- The body of the scan for the first changed instruction at or after an
index, as a countdown recursion on the remaining range. -/
def scanChangedGo (flags : Nat → InsnFlags) (n : Nat) :
    Nat → Nat → Option Nat
  | _, 0 => none
  | i, m + 1 =>
      if i < n then
        if (flags i).changed then some i else scanChangedGo flags n (i + 1) m
      else none

/-- The scan for the first changed instruction at or after an index
(method_verifier.cc 2301-2305). -/
def scanChanged (flags : Nat → InsnFlags) (n i : Nat) : Option Nat :=
  scanChangedGo flags n i (n - i)

/-- The selection step of the worklist loop (method_verifier.cc 2300-2315):
the first changed index at or after the start-guess cursor; when none
remains there and the cursor is nonzero, rescan from the top.  Returns the
selected index together with the effective cursor. -/
def selectChanged (flags : Nat → InsnFlags) (n startGuess : Nat) :
    Option (Nat × Nat) :=
  match scanChanged flags n startGuess with
  | some i => some (i, startGuess)
  | none =>
      if startGuess ≠ 0 then
        match scanChanged flags n 0 with
        | some i => some (i, 0)
        | none => none
      else none

/-- One iteration of the CodeFlowVerifyMethod worklist loop (2296-2360):
select an instruction, load the working line from the saved table when the
instruction is a branch target (2323-2341, otherwise the line carried over
from the previous iteration is reused), process it, then mark it visited and
clear its changed flag (2357-2359). -/
inductive DriverStep (Line : Type) where
  | done (st : FlowState Line)
  | failed (st : FlowState Line)
  | running (st : FlowState Line) (startGuess : Nat)

def driverStep {Line : Type} [DecidableEq Line] (M : MethodModel Line)
    (ops : LineOps Line) (st : FlowState Line) (startGuess : Nat) :
    DriverStep Line :=
  match selectChanged st.flags M.insnsSize startGuess with
  | none => .done st
  | some (i, g) =>
      let st1 := if (st.flags i).branchTarget
                 then { st with workLine := st.table i } else st
      match codeFlowVerifyInstruction M ops st1 i g with
      | .failed st2 => .failed st2
      | .ok st2 g2 =>
          let fl2 := { st2.flags i with visited := true, changed := false }
          .running { st2 with flags := Function.update st2.flags i fl2 } g2

/-- The worklist loop with explicit fuel; none means the fuel ran out. -/
def driverLoop {Line : Type} [DecidableEq Line] (M : MethodModel Line)
    (ops : LineOps Line) : Nat → FlowState Line → Nat →
    Option (Bool × FlowState Line)
  | 0, _, _ => none
  | fuel + 1, st, g =>
      match driverStep M ops st g with
      | .done st2 => some (true, st2)
      | .failed st2 => some (false, st2)
      | .running st2 g2 => driverLoop M ops fuel st2 g2

/-- CodeFlowVerifyMethod entry (method_verifier.cc 2291-2293): mark pc 0
changed and start the loop with cursor 0. -/
def codeFlowVerifyMethod {Line : Type} [DecidableEq Line]
    (M : MethodModel Line) (ops : LineOps Line) (fuel : Nat)
    (st0 : FlowState Line) : Option (Bool × FlowState Line) :=
  driverLoop M ops fuel (setChanged st0 0) 0


/-! ### Claim C10: UpdateRegisters behavior -/

/-- Claim C10: propagating a register line to a successor pc: if that pc has
never been visited or marked changed, the incoming line is copied wholesale
into the saved line and the pc is unconditionally marked changed; when the
successor is a (single-width) return instruction, the monitor stack is
verified empty (a locking failure is recorded otherwise) and every register
except the returned operand is set to Conflict before saving; otherwise the
incoming line is merged into the saved line and the pc is newly marked
changed only if the merge altered it. -/
theorem updateRegisters_spec {Line : Type} [DecidableEq Line]
    (M : MethodModel Line) (ops : LineOps Line) (st : FlowState Line)
    (t : Nat) (ml : Line) (uml : Bool) (vA : Nat)
    (hhard : st.failures.hard = false)
    (hmergeOk : ops.mergeOk (st.table t) ml = true)
    (hshape : M.retShapeAt t = .retSingle vA) :
    (((st.flags t).visited = false ∧ (st.flags t).changed = false ∧
        (st.flags t).retInsn = false) →
      (updateRegisters M ops st t ml uml).1.table t = ml ∧
      ((updateRegisters M ops st t ml uml).1.flags t).changed = true ∧
      (updateRegisters M ops st t ml uml).2.1 = true) ∧
    (((st.flags t).visited = false ∧ (st.flags t).changed = false ∧
        (st.flags t).retInsn = true) →
      (updateRegisters M ops st t ml uml).1.table t
          = ops.markAllConflictsExcept vA ml ∧
      (updateRegisters M ops st t ml uml).1.failures
          = (if ops.monitorDepth ml = 0 then st.failures
             else fail .locking st.failures) ∧
      ((updateRegisters M ops st t ml uml).1.flags t).changed = true ∧
      (updateRegisters M ops st t ml uml).2.1 = true) ∧
    (((st.flags t).visited = true ∨ (st.flags t).changed = true) →
      (updateRegisters M ops st t ml uml).1.table t
          = ops.merge (st.table t) ml ∧
      ((st.flags t).changed = false →
        (((updateRegisters M ops st t ml uml).1.flags t).changed = true ↔
          ops.merge (st.table t) ml ≠ st.table t)) ∧
      (updateRegisters M ops st t ml uml).2.1 = true) := by
  refine ⟨?_, ?_, ?_⟩
  · rintro ⟨h1, h2, h3⟩
    simp [updateRegisters, h1, h2, h3, setChanged, Function.update_same]
  · rintro ⟨h1, h2, h3⟩
    have hlock : (if ops.monitorDepth ml = 0 then st.failures
        else fail .locking st.failures).hard = false := by
      by_cases hd : ops.monitorDepth ml = 0 <;> simp [hd, fail, hhard]
    simp only [updateRegisters, h1, h2, h3, adjustReturnLine, hshape]
    simp [hlock, setChanged, Function.update_same, beq_iff_eq]
  · intro h
    have htouched : ((st.flags t).visited || (st.flags t).changed) = true := by
      rcases h with h | h <;> simp [h]
    by_cases hne : ops.merge (st.table t) ml = st.table t
    · simp [updateRegisters, htouched, hmergeOk, hhard, hne,
        Function.update_same]
    · simp [updateRegisters, htouched, hmergeOk, hhard, hne, setChanged,
        Function.update_same]

/-- Concrete register-line operations over natural-number lines for the
claim C10 witness. -/
def c10Ops : LineOps Nat where
  merge := fun a b => max a b
  mergeOk := fun _ _ => true
  monitorDepth := fun _ => 0
  pushMonitor := fun _ _ l => l
  popMonitor := fun _ l => l
  markAllConflicts := fun _ => 0
  markAllConflictsExcept := fun _ l => l
  markAllConflictsExceptWide := fun _ l => l
  ctorReturnOk := fun _ => true

/-- A one-instruction method model for the claim C10 witness. -/
def c10Model : MethodModel Nat where
  insnsSize := 1
  sizeAt := fun _ => 1
  opFlagsAt := fun _ => {}
  kindAt := fun _ => .other (fun l => { workLine := l })
  compatThrowAt := fun _ => false
  branchTargetAt := fun _ => 0
  switchTargetsAt := fun _ => []
  handlersAt := fun _ => []
  retShapeAt := fun _ => .retSingle 0
  isInstanceCtor := false
  notMoveExcAt := fun _ => true
  notMoveExcOrResultAt := fun _ => true
  hasSlotAt := fun _ => true

/-- An untouched starting state for the claim C10 witness. -/
def c10State : FlowState Nat where
  flags := fun _ => {}
  table := fun _ => 0
  workLine := 0
  savedLine := 0
  failures := emptyFail

/-- Witness for the claim C10 theorem on a fresh pc receiving line 5. -/
theorem updateRegisters_spec_witness :
    (((c10State.flags 0).visited = false ∧ (c10State.flags 0).changed = false ∧
        (c10State.flags 0).retInsn = false) →
      (updateRegisters c10Model c10Ops c10State 0 5 false).1.table 0 = 5 ∧
      ((updateRegisters c10Model c10Ops c10State 0 5 false).1.flags 0).changed
          = true ∧
      (updateRegisters c10Model c10Ops c10State 0 5 false).2.1 = true) ∧
    (((c10State.flags 0).visited = false ∧ (c10State.flags 0).changed = false ∧
        (c10State.flags 0).retInsn = true) →
      (updateRegisters c10Model c10Ops c10State 0 5 false).1.table 0
          = c10Ops.markAllConflictsExcept 0 5 ∧
      (updateRegisters c10Model c10Ops c10State 0 5 false).1.failures
          = (if c10Ops.monitorDepth 5 = 0 then c10State.failures
             else fail .locking c10State.failures) ∧
      ((updateRegisters c10Model c10Ops c10State 0 5 false).1.flags 0).changed
          = true ∧
      (updateRegisters c10Model c10Ops c10State 0 5 false).2.1 = true) ∧
    (((c10State.flags 0).visited = true ∨ (c10State.flags 0).changed = true) →
      (updateRegisters c10Model c10Ops c10State 0 5 false).1.table 0
          = c10Ops.merge (c10State.table 0) 5 ∧
      ((c10State.flags 0).changed = false →
        (((updateRegisters c10Model c10Ops c10State 0 5 false).1.flags 0).changed
            = true ↔
          c10Ops.merge (c10State.table 0) 5 ≠ c10State.table 0)) ∧
      (updateRegisters c10Model c10Ops c10State 0 5 false).2.1 = true) :=
  updateRegisters_spec c10Model c10Ops c10State 0 5 false 0 rfl rfl rfl


/-! ### Claim C4: monitor-exit strips kThrow -/

/-- UpdateRegisters touches the saved-line table and the flags only at the
target pc. -/
theorem updateRegisters_preserves_other {Line : Type} [DecidableEq Line]
    (M : MethodModel Line) (ops : LineOps Line) (st : FlowState Line)
    (nextInsn : Nat) (ml : Line) (uml : Bool) (p : Nat) (hp : p ≠ nextInsn) :
    (updateRegisters M ops st nextInsn ml uml).1.table p = st.table p ∧
    (updateRegisters M ops st nextInsn ml uml).1.flags p = st.flags p := by
  simp only [updateRegisters, setChanged]
  repeat' split
  all_goals simp [Function.update_noteq hp]


/-- The fallthrough tail touches the table and flags only at the next pc. -/
theorem continueTail_preserves_other {Line : Type} [DecidableEq Line]
    (M : MethodModel Line) (ops : LineOps Line) (st : FlowState Line)
    (next : Nat) (p : Nat) (hp : p ≠ next) :
    (continueTail M ops st next).1.table p = st.table p ∧
    (continueTail M ops st next).1.flags p = st.flags p := by
  simp only [continueTail]
  split
  · split
    · exact updateRegisters_preserves_other M ops st next st.workLine true p hp
    · exact updateRegisters_preserves_other M ops st next st.workLine true p hp
  · simp [setChanged, Function.update_noteq hp]

/-- The fallthrough phase touches the table and flags only at the next pc. -/
theorem continuePhase_preserves_other {Line : Type} [DecidableEq Line]
    (M : MethodModel Line) (ops : LineOps Line) (st : FlowState Line)
    (i : Nat) (opFlags : OpFlags) (fallLine : Option Line) (p : Nat)
    (hp : p ≠ i + M.sizeAt i) :
    (continuePhase M ops st i opFlags fallLine).1.table p = st.table p ∧
    (continuePhase M ops st i opFlags fallLine).1.flags p = st.flags p := by
  simp only [continuePhase]
  repeat' split
  all_goals
    first
      | exact ⟨rfl, rfl⟩
      | exact continueTail_preserves_other M ops _ _ p hp
      | (constructor <;>
          first
            | exact (continueTail_preserves_other M ops _ _ p hp).1
            | exact (continueTail_preserves_other M ops _ _ p hp).2)

/-- The state carried by a processing result. -/
def resultState {Line : Type} : StepResult Line → FlowState Line
  | .ok st _ => st
  | .failed st => st

/-- Claim C4: the monitor-exit transfer pops the monitor stack and strips
the kThrow opcode flag before successor propagation, so processing a
monitor-exit instruction never merges its register line into any exception
handler entry: only the fallthrough pc can be touched. -/
theorem monitorExit_no_exception_edges {Line : Type} [DecidableEq Line]
    (M : MethodModel Line) (ops : LineOps Line) (st : FlowState Line)
    (i g r : Nat)
    (hk : M.kindAt i = .monitorExit r)
    (hf : M.opFlagsAt i = { canThrow := true, cont := true }) :
    (dispatchInsn ops (InsnKind.monitorExit r) i (M.opFlagsAt i)
        st.workLine).1.canThrow = false ∧
    (dispatchInsn ops (InsnKind.monitorExit r) i (M.opFlagsAt i)
        st.workLine).2.workLine = ops.popMonitor r st.workLine ∧
    (∀ p, p ≠ i + M.sizeAt i →
      (resultState (codeFlowVerifyInstruction M ops st i g)).table p
          = st.table p ∧
      (resultState (codeFlowVerifyInstruction M ops st i g)).flags p
          = st.flags p) := by
  refine ⟨by simp [dispatchInsn], by simp [dispatchInsn], ?_⟩
  intro p hp
  have key : ∀ (X : StepResult Line),
      (∀ st2 g2, X = .ok st2 g2 →
        st2.table p = st.table p ∧ st2.flags p = st.flags p) →
      (∀ st2, X = .failed st2 →
        st2.table p = st.table p ∧ st2.flags p = st.flags p) →
      ((resultState X).table p = st.table p ∧
        (resultState X).flags p = st.flags p) := by
    intro X h1 h2
    cases X with
    | ok st2 g2 => exact h1 st2 g2 rfl
    | failed st2 => exact h2 st2 rfl
  refine key _ ?_ ?_
  · intro st2 g2 heq
    simp only [codeFlowVerifyInstruction, hk, hf, dispatchInsn, branchPhase,
      switchPhase, excPhase, InsnKind.isMonEnter] at heq
    simp only [Bool.false_eq_true, Bool.true_or, Bool.true_and, Bool.false_and,
      Bool.and_false, Bool.and_true, Bool.or_false, Bool.false_or, if_false,
      if_true, Bool.not_false, Bool.not_true,
      apply_ite (FlowState.table : FlowState Line → Nat → Line),
      apply_ite (FlowState.flags : FlowState Line → Nat → InsnFlags),
      apply_ite (FlowState.failures : FlowState Line → FailState),
      apply_ite (FlowState.workLine : FlowState Line → Line),
      apply_ite (FlowState.savedLine : FlowState Line → Line), ite_self] at heq
    repeat' split at heq
    all_goals
      first
        | exact StepResult.noConfusion heq
        | (cases heq; exact ⟨rfl, rfl⟩)
        | (cases heq; exact continuePhase_preserves_other M ops _ i _ none p hp)
  · intro st2 heq
    simp only [codeFlowVerifyInstruction, hk, hf, dispatchInsn, branchPhase,
      switchPhase, excPhase, InsnKind.isMonEnter] at heq
    simp only [Bool.false_eq_true, Bool.true_or, Bool.true_and, Bool.false_and,
      Bool.and_false, Bool.and_true, Bool.or_false, Bool.false_or, if_false,
      if_true, Bool.not_false, Bool.not_true,
      apply_ite (FlowState.table : FlowState Line → Nat → Line),
      apply_ite (FlowState.flags : FlowState Line → Nat → InsnFlags),
      apply_ite (FlowState.failures : FlowState Line → FailState),
      apply_ite (FlowState.workLine : FlowState Line → Line),
      apply_ite (FlowState.savedLine : FlowState Line → Line), ite_self] at heq
    repeat' split at heq
    all_goals
      first
        | exact StepResult.noConfusion heq
        | (cases heq; exact ⟨rfl, rfl⟩)
        | (cases heq; exact continuePhase_preserves_other M ops _ i _ none p hp)


/-- Concrete register-line operations for the claim C4 witness. -/
def c4Ops : LineOps Nat where
  merge := fun a b => max a b
  mergeOk := fun _ _ => true
  monitorDepth := fun _ => 0
  pushMonitor := fun _ _ l => l
  popMonitor := fun _ l => l + 1
  markAllConflicts := fun _ => 0
  markAllConflictsExcept := fun _ l => l
  markAllConflictsExceptWide := fun _ l => l
  ctorReturnOk := fun _ => true

/-- A two-instruction method whose first instruction is a monitor-exit in a
try block, for the claim C4 witness. -/
def c4Model : MethodModel Nat where
  insnsSize := 2
  sizeAt := fun _ => 1
  opFlagsAt := fun _ => { canThrow := true, cont := true }
  kindAt := fun _ => .monitorExit 0
  compatThrowAt := fun _ => false
  branchTargetAt := fun _ => 0
  switchTargetsAt := fun _ => []
  handlersAt := fun _ => [⟨1, false⟩]
  retShapeAt := fun _ => .retVoid
  isInstanceCtor := false
  notMoveExcAt := fun _ => true
  notMoveExcOrResultAt := fun _ => true
  hasSlotAt := fun _ => false

/-- A starting state inside a try block for the claim C4 witness. -/
def c4State : FlowState Nat where
  flags := fun _ => { inTry := true }
  table := fun _ => 0
  workLine := 7
  savedLine := 0
  failures := emptyFail

/-- Witness for the claim C4 theorem at the concrete monitor-exit method. -/
theorem monitorExit_no_exception_edges_witness :
    (dispatchInsn c4Ops (InsnKind.monitorExit 0) 0 (c4Model.opFlagsAt 0)
        c4State.workLine).1.canThrow = false ∧
    (dispatchInsn c4Ops (InsnKind.monitorExit 0) 0 (c4Model.opFlagsAt 0)
        c4State.workLine).2.workLine = c4Ops.popMonitor 0 c4State.workLine ∧
    (∀ p, p ≠ 0 + c4Model.sizeAt 0 →
      (resultState (codeFlowVerifyInstruction c4Model c4Ops c4State 0 0)).table p
          = c4State.table p ∧
      (resultState (codeFlowVerifyInstruction c4Model c4Ops c4State 0 0)).flags p
          = c4State.flags p) :=
  monitorExit_no_exception_edges c4Model c4Ops c4State 0 0 0 rfl rfl

/-! ### Claim C2: exception edges merge the pre-instruction snapshot

CodeFlowVerifyInstruction saves a snapshot of the working line into
saved_line_ before running the instruction transfer (method_verifier.cc
2476-2488), and the exception-edge propagation loop merges saved_line_ (not
work_line_) into every covering handler in handler-table order (3854-3884).
We verify this on a can-throw instruction covered by two handlers: both
handler entries receive the pre-instruction working line, while the
fallthrough successor receives the post-transfer line. -/

def StepResult.isOk {Line : Type} : StepResult Line → Bool
  | .ok _ _ => true
  | .failed _ => false

/-- Claim C2: for a can-throw instruction inside a try block, the register
line merged into each covering exception handler entry (in handler-table
order) is the pre-instruction snapshot of the working line saved before the
instruction transfer ran, so a register mutated by the instruction keeps its
pre-instruction type on the handler-entry lines even though the fallthrough
line holds the mutated post-transfer line. -/
theorem exception_edges_use_snapshot {Line : Type} [DecidableEq Line]
    (M : MethodModel Line) (ops : LineOps Line) (st : FlowState Line)
    (i g : Nat) (t : Line → TransferResult Line) (wl2 : Line) (h1 h2 : Handler)
    (hk : M.kindAt i = .other t)
    (hf : M.opFlagsAt i = { canThrow := true, cont := true })
    (ht : t st.workLine = { workLine := wl2 })
    (hintry : (st.flags i).inTry = true)
    (hhard : st.failures.hard = false)
    (hhandlers : M.handlersAt i = [h1, h2])
    (hha1 : (st.flags h1.addr).visited = false)
    (hha2 : (st.flags h1.addr).changed = false)
    (hha3 : (st.flags h1.addr).retInsn = false)
    (hhb1 : (st.flags h2.addr).visited = false)
    (hhb2 : (st.flags h2.addr).changed = false)
    (hhb3 : (st.flags h2.addr).retInsn = false)
    (hn1 : (st.flags (i + M.sizeAt i)).visited = false)
    (hn2 : (st.flags (i + M.sizeAt i)).changed = false)
    (hn3 : (st.flags (i + M.sizeAt i)).retInsn = false)
    (hslot : M.hasSlotAt (i + M.sizeAt i) = true)
    (hbound : i + M.sizeAt i < M.insnsSize)
    (hmove : M.notMoveExcAt (i + M.sizeAt i) = true)
    (hdepth : ops.monitorDepth wl2 = 0)
    (hna : h1.addr ≠ i + M.sizeAt i)
    (hnb : h2.addr ≠ i + M.sizeAt i)
    (hab : h1.addr ≠ h2.addr)
    (hmut : wl2 ≠ st.workLine) :
    (codeFlowVerifyInstruction M ops st i g).isOk = true ∧
    (resultState (codeFlowVerifyInstruction M ops st i g)).table h1.addr
        = st.workLine ∧
    (resultState (codeFlowVerifyInstruction M ops st i g)).table h2.addr
        = st.workLine ∧
    (resultState (codeFlowVerifyInstruction M ops st i g)).table
        (i + M.sizeAt i) = wl2 ∧
    (resultState (codeFlowVerifyInstruction M ops st i g)).table
        (i + M.sizeAt i)
      ≠ (resultState (codeFlowVerifyInstruction M ops st i g)).table h1.addr := by
  have hb2 : ¬ (M.insnsSize ≤ i + M.sizeAt i) := by omega
  have hna' : (i + M.sizeAt i) ≠ h1.addr := Ne.symm hna
  have hnb' : (i + M.sizeAt i) ≠ h2.addr := Ne.symm hnb
  have hab' : h2.addr ≠ h1.addr := Ne.symm hab
  have hd : decide (0 < 0) = false := rfl
  simp only [codeFlowVerifyInstruction, hk, hf, dispatchInsn, ht, branchPhase,
    switchPhase, excPhase, hhandlers, handlerUpdates, continuePhase,
    continueTail, updateRegisters, setChanged, InsnKind.isMonEnter, hintry,
    hhard, hslot, hmove, hdepth, hb2]
  simp only [Bool.false_eq_true, Bool.true_or, Bool.true_and, Bool.false_and,
    Bool.and_false, Bool.and_true, Bool.or_false, Bool.false_or, if_false,
    if_true, Bool.not_false, Bool.not_true, Function.update_same,
    Function.update_noteq hna, Function.update_noteq hna',
    Function.update_noteq hnb, Function.update_noteq hnb',
    Function.update_noteq hab, Function.update_noteq hab',
    hha1, hha2, hha3, hhb1, hhb2, hhb3,
    hn1, hn2, hn3, Bool.or_self, ite_self]
  simp only [ht]
  simp only [Bool.false_eq_true, Bool.true_eq_false, Bool.true_or, Bool.true_and,
    Bool.false_and, Bool.and_false, Bool.and_true, Bool.or_false, Bool.false_or,
    if_false, if_true, Bool.not_false, Bool.not_true, Function.update_same,
    Function.update_noteq hna, Function.update_noteq hna',
    Function.update_noteq hnb, Function.update_noteq hnb',
    Function.update_noteq hab, Function.update_noteq hab',
    hha1, hha2, hha3, hhb1, hhb2, hhb3,
    hn1, hn2, hn3, hhard, hdepth, hslot, hmove, hb2, hintry, hd,
    List.any_cons, List.any_nil, Bool.or_self, ite_self,
    Option.getD_none, Option.getD_some, beq_self_eq_true, Nat.zero_eq]
  refine ⟨rfl, ?_, ?_, ?_, ?_⟩
  · simp only [resultState, Function.update_noteq hna,
      Function.update_noteq hab, Function.update_same]
  · simp only [resultState, Function.update_noteq hnb, Function.update_same]
  · simp only [resultState, Function.update_same]
  · simp only [resultState, Function.update_same, Function.update_noteq hna,
      Function.update_noteq hab]
    exact hmut

/-- Line operations for the claim C2 witness: lines are natural numbers with
an always-empty monitor stack. -/
def c2Ops : LineOps Nat where
  merge := fun a b => max a b
  mergeOk := fun _ _ => true
  monitorDepth := fun _ => 0
  pushMonitor := fun _ _ l => l
  popMonitor := fun _ l => l + 1
  markAllConflicts := fun _ => 0
  markAllConflictsExcept := fun _ l => l
  markAllConflictsExceptWide := fun _ l => l
  ctorReturnOk := fun _ => true

/-- A method whose instructions are can-throw transfers that mutate the line
(successor function), each covered by the two handlers at 5 and 7, for the
claim C2 witness. -/
def c2Model : MethodModel Nat where
  insnsSize := 10
  sizeAt := fun _ => 1
  opFlagsAt := fun _ => { canThrow := true, cont := true }
  kindAt := fun _ => .other (fun l => { workLine := l + 1 })
  compatThrowAt := fun _ => false
  branchTargetAt := fun _ => 0
  switchTargetsAt := fun _ => []
  handlersAt := fun _ => [⟨5, false⟩, ⟨7, true⟩]
  retShapeAt := fun _ => .retVoid
  isInstanceCtor := false
  notMoveExcAt := fun _ => true
  notMoveExcOrResultAt := fun _ => true
  hasSlotAt := fun _ => true

/-- A starting state inside a try block with working line 0 for the claim C2
witness. -/
def c2State : FlowState Nat where
  flags := fun _ => { inTry := true }
  table := fun _ => 0
  workLine := 0
  savedLine := 0
  failures := emptyFail

/-- Witness for the claim C2 theorem: at the concrete can-throw method both
handler entries 5 and 7 receive the pre-instruction line 0 while the
fallthrough at 1 receives the mutated line 1. -/
theorem exception_edges_use_snapshot_witness :
    (codeFlowVerifyInstruction c2Model c2Ops c2State 0 0).isOk = true ∧
    (resultState (codeFlowVerifyInstruction c2Model c2Ops c2State 0 0)).table 5
        = c2State.workLine ∧
    (resultState (codeFlowVerifyInstruction c2Model c2Ops c2State 0 0)).table 7
        = c2State.workLine ∧
    (resultState (codeFlowVerifyInstruction c2Model c2Ops c2State 0 0)).table
        (0 + c2Model.sizeAt 0) = 1 ∧
    (resultState (codeFlowVerifyInstruction c2Model c2Ops c2State 0 0)).table
        (0 + c2Model.sizeAt 0)
      ≠ (resultState (codeFlowVerifyInstruction c2Model c2Ops c2State 0 0)).table 5 :=
  exception_edges_use_snapshot c2Model c2Ops c2State 0 0 _ 1 ⟨5, false⟩ ⟨7, true⟩
    rfl rfl rfl rfl rfl rfl rfl rfl rfl rfl rfl rfl rfl rfl rfl rfl
    (by decide) rfl rfl (by decide) (by decide) (by decide) (by decide)

/-! ### Claim C3: held monitors across a throw require a catch-all handler

After the handler merges, CodeFlowVerifyInstruction checks that a can-throw
instruction in a try block with a non-empty monitor stack is covered by a
catch-all handler (method_verifier.cc 3854-3869); the one exemption is
MONITOR_ENTER itself when its push produced depth one, because the throw
would happen before the lock is acquired. -/

/-- Claim C3: a can-throw instruction in a try block with a non-empty
monitor stack and no covering catch-all handler hard-fails verification; the
monitor-enter that pushed onto a previously empty stack (post-push depth
one) is exempt and verification proceeds. -/
theorem monitor_catchall_requirement {Line : Type} [DecidableEq Line]
    (M : MethodModel Line) (ops : LineOps Line) (st : FlowState Line)
    (i j g : Nat) (t : Line → TransferResult Line) (wl2 : Line)
    (r : Nat) (wlp : Line) (h hb : Handler)
    (hk : M.kindAt i = .other t)
    (hf : M.opFlagsAt i = { canThrow := true, cont := true })
    (ht : t st.workLine = { workLine := wl2 })
    (hintry : (st.flags i).inTry = true)
    (hhard : st.failures.hard = false)
    (hhandlers : M.handlersAt i = [h])
    (hh1 : (st.flags h.addr).visited = false)
    (hh2 : (st.flags h.addr).changed = false)
    (hh3 : (st.flags h.addr).retInsn = false)
    (hdep : 0 < ops.monitorDepth wl2)
    (hnca : h.catchAll = false)
    (hkj : M.kindAt j = .monitorEnter r)
    (hfj : M.opFlagsAt j = { canThrow := true, cont := true })
    (hpush : ops.pushMonitor r j st.workLine = wlp)
    (hdep1 : ops.monitorDepth wlp = 1)
    (hintryj : (st.flags j).inTry = true)
    (hhandlersj : M.handlersAt j = [hb])
    (hhb1 : (st.flags hb.addr).visited = false)
    (hhb2 : (st.flags hb.addr).changed = false)
    (hhb3 : (st.flags hb.addr).retInsn = false)
    (hncab : hb.catchAll = false)
    (hn1 : (st.flags (j + M.sizeAt j)).visited = false)
    (hn2 : (st.flags (j + M.sizeAt j)).changed = false)
    (hn3 : (st.flags (j + M.sizeAt j)).retInsn = false)
    (hslot : M.hasSlotAt (j + M.sizeAt j) = true)
    (hbound : j + M.sizeAt j < M.insnsSize)
    (hmove : M.notMoveExcAt (j + M.sizeAt j) = true)
    (hnb : hb.addr ≠ j + M.sizeAt j) :
    ((codeFlowVerifyInstruction M ops st i g).isOk = false ∧
     (resultState (codeFlowVerifyInstruction M ops st i g)).failures.hard
        = true) ∧
    (codeFlowVerifyInstruction M ops st j g).isOk = true := by
  have hd1 : decide (0 < ops.monitorDepth wl2) = true := by
    simp [hdep]
  constructor
  · simp only [codeFlowVerifyInstruction, hk, hf, dispatchInsn, ht, branchPhase,
      switchPhase, excPhase, hhandlers, handlerUpdates, updateRegisters,
      setChanged, InsnKind.isMonEnter, hintry, hhard]
    simp only [Bool.false_eq_true, Bool.true_eq_false, Bool.true_or,
      Bool.true_and, Bool.false_and, Bool.and_false, Bool.and_true,
      Bool.or_false, Bool.false_or, if_false, if_true, Bool.not_false,
      Bool.not_true, Function.update_same, hh1, hh2, hh3, hhard, hintry,
      List.any_cons, List.any_nil, hnca, hd1, Bool.or_self, ite_self,
      Option.getD_none, Option.getD_some]
    simp only [ht]
    simp only [Bool.false_eq_true, Bool.true_eq_false, Bool.true_or,
      Bool.true_and, Bool.false_and, Bool.and_false, Bool.and_true,
      Bool.or_false, Bool.false_or, if_false, if_true, Bool.not_false,
      Bool.not_true, Function.update_same, hh1, hh2, hh3, hhard, hintry,
      List.any_cons, List.any_nil, hnca, hd1, Bool.or_self, ite_self,
      Option.getD_none, Option.getD_some]
    exact ⟨rfl, fail_badClassHard_hard _⟩
  · have hb2 : ¬ (M.insnsSize ≤ j + M.sizeAt j) := by omega
    have hnb' : (j + M.sizeAt j) ≠ hb.addr := Ne.symm hnb
    have hdd : decide (0 < ops.monitorDepth wlp) = true := by
      simp [hdep1]
    simp only [codeFlowVerifyInstruction, hkj, hfj, dispatchInsn, hpush,
      branchPhase, switchPhase, excPhase, hhandlersj, handlerUpdates,
      continuePhase, continueTail, updateRegisters, setChanged,
      InsnKind.isMonEnter, hintryj, hhard, hslot, hmove, hb2]
    simp only [Bool.false_eq_true, Bool.true_eq_false, Bool.true_or,
      Bool.true_and, Bool.false_and, Bool.and_false, Bool.and_true,
      Bool.or_false, Bool.false_or, if_false, if_true, Bool.not_false,
      Bool.not_true, Function.update_same,
      Function.update_noteq hnb, Function.update_noteq hnb',
      hhb1, hhb2, hhb3, hn1, hn2, hn3, hhard, hintryj, hdep1,
      List.any_cons, List.any_nil, hncab, hdd, hslot, hmove, hb2,
      beq_self_eq_true, Bool.or_self, ite_self,
      Option.getD_none, Option.getD_some]
    simp only [hpush]
    simp only [Bool.false_eq_true, Bool.true_eq_false, Bool.true_or,
      Bool.true_and, Bool.false_and, Bool.and_false, Bool.and_true,
      Bool.or_false, Bool.false_or, if_false, if_true, Bool.not_false,
      Bool.not_true, Function.update_same,
      Function.update_noteq hnb, Function.update_noteq hnb',
      hhb1, hhb2, hhb3, hn1, hn2, hn3, hhard, hintryj, hdep1,
      List.any_cons, List.any_nil, hncab, hdd, hslot, hmove, hb2,
      beq_self_eq_true, Bool.or_self, ite_self,
      Option.getD_none, Option.getD_some]
    rfl

/-- Line operations for the claim C3 witness: a line is its own monitor
depth, and pushMonitor increments it. -/
def c3Ops : LineOps Nat where
  merge := fun a b => max a b
  mergeOk := fun _ _ => true
  monitorDepth := fun l => l
  pushMonitor := fun _ _ l => l + 1
  popMonitor := fun _ l => l - 1
  markAllConflicts := fun _ => 0
  markAllConflictsExcept := fun _ l => l
  markAllConflictsExceptWide := fun _ l => l
  ctorReturnOk := fun _ => true

/-- A method for the claim C3 witness: pc 2 is a monitor-enter, every other
pc a can-throw transfer that leaves the (nonzero) depth behind; no handler
is a catch-all. -/
def c3Model : MethodModel Nat where
  insnsSize := 10
  sizeAt := fun _ => 1
  opFlagsAt := fun _ => { canThrow := true, cont := true }
  kindAt := fun pc => if pc = 2 then .monitorEnter 0
                      else .other (fun l => { workLine := l + 1 })
  compatThrowAt := fun _ => false
  branchTargetAt := fun _ => 0
  switchTargetsAt := fun _ => []
  handlersAt := fun pc => if pc = 2 then [⟨7, false⟩] else [⟨5, false⟩]
  retShapeAt := fun _ => .retVoid
  isInstanceCtor := false
  notMoveExcAt := fun _ => true
  notMoveExcOrResultAt := fun _ => true
  hasSlotAt := fun _ => true

/-- A starting state inside a try block with empty monitor stack for the
claim C3 witness. -/
def c3State : FlowState Nat where
  flags := fun _ => { inTry := true }
  table := fun _ => 0
  workLine := 0
  savedLine := 0
  failures := emptyFail

/-- Witness for the claim C3 theorem: at pc 0 (a can-throw transfer leaving
depth one with no catch-all) verification hard-fails, while at pc 2 the
monitor-enter that raises the depth from zero to one is exempt. -/
theorem monitor_catchall_requirement_witness :
    ((codeFlowVerifyInstruction c3Model c3Ops c3State 0 0).isOk = false ∧
     (resultState (codeFlowVerifyInstruction c3Model c3Ops c3State 0 0)).failures.hard
        = true) ∧
    (codeFlowVerifyInstruction c3Model c3Ops c3State 2 0).isOk = true :=
  monitor_catchall_requirement c3Model c3Ops c3State 0 2 0 _ 1 0 1
    ⟨5, false⟩ ⟨7, false⟩
    rfl rfl rfl rfl rfl rfl rfl rfl rfl (by decide) rfl
    rfl rfl rfl rfl rfl rfl rfl rfl rfl rfl rfl rfl rfl rfl
    (by decide) rfl (by decide)

/-! ### Claim C9: worklist selection and the start-guess cursor

The worklist loop of CodeFlowVerifyMethod (method_verifier.cc 2296-2360)
does not rescan from pc 0 on every iteration: it scans for a changed
instruction from the start-guess cursor onward (2301-2305) and only falls
back to a scan from the top when that fails and the cursor is nonzero
(2306-2315), so the selected instruction is the lowest-indexed changed
instruction at or after the cursor, not necessarily the globally lowest. -/

/-- Soundness of the changed-scan: a hit is a changed index in range and
nothing before it (from the scan start) is changed. -/
theorem scanChangedGo_some (flags : Nat → InsnFlags) (n : Nat) :
    ∀ m i k, scanChangedGo flags n i m = some k →
      i ≤ k ∧ k < n ∧ (flags k).changed = true ∧
      ∀ j, i ≤ j → j < k → (flags j).changed = false := by
  intro m
  induction m with
  | zero => intro i k hsc; exact absurd hsc (by simp [scanChangedGo])
  | succ m ih =>
      intro i k hsc
      rw [scanChangedGo] at hsc
      by_cases hin : i < n
      · rw [if_pos hin] at hsc
        by_cases hc : (flags i).changed = true
        · rw [if_pos hc] at hsc
          cases hsc
          exact ⟨le_refl _, hin, hc, fun j hj1 hj2 => absurd hj2 (by omega)⟩
        · rw [if_neg hc] at hsc
          obtain ⟨h1, h2, h3, h4⟩ := ih (i + 1) k hsc
          refine ⟨by omega, h2, h3, ?_⟩
          intro j hj1 hj2
          rcases Nat.eq_or_lt_of_le hj1 with heq | hlt
          · subst heq; simpa using hc
          · exact h4 j (by omega) hj2
      · rw [if_neg hin] at hsc; cases hsc

/-- A missed scan means no changed index in the scanned range. -/
theorem scanChangedGo_none (flags : Nat → InsnFlags) (n : Nat) :
    ∀ m i, n - i ≤ m → scanChangedGo flags n i m = none →
      ∀ j, i ≤ j → j < n → (flags j).changed = false := by
  intro m
  induction m with
  | zero => intro i hm _ j hj1 hj2; omega
  | succ m ih =>
      intro i hm hsc j hj1 hj2
      rw [scanChangedGo] at hsc
      by_cases hin : i < n
      · rw [if_pos hin] at hsc
        by_cases hc : (flags i).changed = true
        · rw [if_pos hc] at hsc; cases hsc
        · rw [if_neg hc] at hsc
          rcases Nat.eq_or_lt_of_le hj1 with heq | hlt
          · subst heq; simpa using hc
          · exact ih (i + 1) (by omega) hsc j (by omega) hj2
      · omega

/-- Completeness of the changed-scan: it misses when nothing is changed. -/
theorem scanChangedGo_none_of (flags : Nat → InsnFlags) (n : Nat) :
    ∀ m i, (∀ j, i ≤ j → j < n → (flags j).changed = false) →
      scanChangedGo flags n i m = none := by
  intro m
  induction m with
  | zero => intro i _; rfl
  | succ m ih =>
      intro i hall
      rw [scanChangedGo]
      by_cases hin : i < n
      · rw [if_pos hin, if_neg (by simp [hall i (le_refl i) hin])]
        exact ih (i + 1) (fun j hj1 hj2 => hall j (by omega) hj2)
      · rw [if_neg hin]

/-- When the selection step finds nothing, no instruction is changed. -/
theorem selectChanged_none_all (flags : Nat → InsnFlags) (n g : Nat)
    (hsel : selectChanged flags n g = none) :
    ∀ m, m < n → (flags m).changed = false := by
  intro m hm
  unfold selectChanged at hsel
  rcases hscan : scanChanged flags n g with _ | i
  · rw [hscan] at hsel
    by_cases hg : g ≠ 0
    · rw [if_pos hg] at hsel
      rcases hscan0 : scanChanged flags n 0 with _ | i
      · exact scanChangedGo_none flags n (n - 0) 0 (le_refl _) hscan0 m
          (Nat.zero_le m) hm
      · rw [hscan0] at hsel; cases hsel
    · have hg0 : g = 0 := by omega
      subst hg0
      exact scanChangedGo_none flags n (n - 0) 0 (le_refl _) hscan m
        (Nat.zero_le m) hm
  · rw [hscan] at hsel; cases hsel

/-- The post-processing bookkeeping of the worklist loop
(method_verifier.cc 2357-2359): mark the instruction visited and clear its
changed flag. -/
def markVisitedNotChanged {Line : Type} (st : FlowState Line) (i : Nat) :
    FlowState Line :=
  let fl := { st.flags i with visited := true, changed := false }
  { st with flags := Function.update st.flags i fl }

/-- Claim C9 (amended): the worklist step selects the lowest-indexed changed
instruction at or after the start-guess cursor, rescanning from pc 0 only
when nothing at or after the cursor is changed and the cursor is nonzero
(so the selection is not always the globally lowest changed index); the loop
ends exactly when no instruction is marked changed; and the selected
instruction runs on the working line loaded from the saved-line table when
it is a branch target, on the carried-over working line otherwise. -/
theorem driver_selection_amended {Line : Type} [DecidableEq Line]
    (M : MethodModel Line) (ops : LineOps Line) (st : FlowState Line)
    (g : Nat) :
    (∀ i c, selectChanged st.flags M.insnsSize g = some (i, c) →
        i < M.insnsSize ∧ (st.flags i).changed = true ∧ c ≤ i ∧
        (∀ m, c ≤ m → m < i → (st.flags m).changed = false) ∧
        (c = g ∨ (c = 0 ∧ g ≠ 0 ∧
          ∀ m, g ≤ m → m < M.insnsSize → (st.flags m).changed = false))) ∧
    (driverStep M ops st g = .done st ↔
        ∀ m, m < M.insnsSize → (st.flags m).changed = false) ∧
    (∀ i c, selectChanged st.flags M.insnsSize g = some (i, c) →
        driverStep M ops st g
          = match codeFlowVerifyInstruction M ops
              (if (st.flags i).branchTarget
               then { st with workLine := st.table i } else st) i c with
            | .failed st2 => .failed st2
            | .ok st2 g2 => .running (markVisitedNotChanged st2 i) g2) := by
  refine ⟨?_, ⟨?_, ?_⟩, ?_⟩
  · intro i c hsel
    unfold selectChanged at hsel
    rcases hscan : scanChanged st.flags M.insnsSize g with _ | k
    · rw [hscan] at hsel
      by_cases hg : g = 0
      · rw [if_neg (by simp [hg])] at hsel; cases hsel
      · rw [if_pos hg] at hsel
        rcases hscan0 : scanChanged st.flags M.insnsSize 0 with _ | k
        · rw [hscan0] at hsel; cases hsel
        · rw [hscan0] at hsel
          cases hsel
          obtain ⟨h1, h2, h3, h4⟩ :=
            scanChangedGo_some st.flags M.insnsSize _ 0 i hscan0
          refine ⟨h2, h3, Nat.zero_le _, fun m hm1 hm2 => h4 m hm1 hm2,
            Or.inr ⟨rfl, hg, ?_⟩⟩
          exact scanChangedGo_none st.flags M.insnsSize _ g (le_refl _) hscan
    · rw [hscan] at hsel
      cases hsel
      obtain ⟨h1, h2, h3, h4⟩ :=
        scanChangedGo_some st.flags M.insnsSize _ g i hscan
      exact ⟨h2, h3, h1, fun m hm1 hm2 => h4 m hm1 hm2, Or.inl rfl⟩
  · intro hdone m hm
    rcases hsel : selectChanged st.flags M.insnsSize g with _ | ⟨i, c⟩
    · exact selectChanged_none_all st.flags M.insnsSize g hsel m hm
    · exfalso
      have hstep : driverStep M ops st g
          = match codeFlowVerifyInstruction M ops
              (if (st.flags i).branchTarget
               then { st with workLine := st.table i } else st) i c with
            | .failed st2 => .failed st2
            | .ok st2 g2 => .running (markVisitedNotChanged st2 i) g2 := by
        unfold driverStep
        rw [hsel]
        rfl
      rw [hstep] at hdone
      split at hdone
      · exact DriverStep.noConfusion hdone
      · exact DriverStep.noConfusion hdone
  · intro hall
    unfold driverStep
    have h0 : scanChanged st.flags M.insnsSize g = none :=
      scanChangedGo_none_of st.flags M.insnsSize _ g
        (fun j _ hj => hall j hj)
    have h1 : scanChanged st.flags M.insnsSize 0 = none :=
      scanChangedGo_none_of st.flags M.insnsSize _ 0
        (fun j _ hj => hall j hj)
    have hsel : selectChanged st.flags M.insnsSize g = none := by
      unfold selectChanged
      rw [h0, h1]
      simp
    rw [hsel]
  · intro i c hsel
    unfold driverStep
    rw [hsel]
    rfl

/-- The state carried by a driver step outcome. -/
def DriverStep.stateOf {Line : Type} : DriverStep Line → FlowState Line
  | .done st => st
  | .failed st => st
  | .running st _ => st

/-- The next start-guess cursor of a running driver step. -/
def DriverStep.guessOf {Line : Type} : DriverStep Line → Nat
  | .running _ g => g
  | _ => 0

/-- Whether a driver step keeps the worklist loop running. -/
def DriverStep.isRunning {Line : Type} : DriverStep Line → Bool
  | .running _ _ => true
  | _ => false

/-- Line operations for the claim C9 counterexample: lines are naturals
merged by maximum, with no monitors. -/
def c9Ops : LineOps Nat where
  merge := fun a b => max a b
  mergeOk := fun _ _ => true
  monitorDepth := fun _ => 0
  pushMonitor := fun _ _ l => l
  popMonitor := fun _ l => l
  markAllConflicts := fun _ => 0
  markAllConflictsExcept := fun _ l => l
  markAllConflictsExceptWide := fun _ l => l
  ctorReturnOk := fun _ => true

/-- A three-instruction method for the claim C9 counterexample: pc 0 falls
through, pc 1 branches back to pc 0 with a line mutation (so the merge back
into the visited pc 0 re-marks it changed) and falls through to pc 2. -/
def c9Model : MethodModel Nat where
  insnsSize := 3
  sizeAt := fun _ => 1
  opFlagsAt := fun pc => if pc = 1 then { branch := true, cont := true }
                         else { cont := true }
  kindAt := fun pc => if pc = 1 then .other (fun l => { workLine := l + 1 })
                      else .other (fun l => { workLine := l })
  compatThrowAt := fun _ => false
  branchTargetAt := fun _ => 0
  switchTargetsAt := fun _ => []
  handlersAt := fun _ => []
  retShapeAt := fun _ => .retVoid
  isInstanceCtor := false
  notMoveExcAt := fun _ => true
  notMoveExcOrResultAt := fun _ => true
  hasSlotAt := fun _ => true

/-- The initial state for the claim C9 counterexample, with pc 0 a branch
target. -/
def c9State : FlowState Nat where
  flags := fun pc => if pc = 0 then { branchTarget := true } else {}
  table := fun _ => 0
  workLine := 0
  savedLine := 0
  failures := emptyFail

/-- The driver state after the first worklist iteration (pc 0 processed). -/
def c9St2 : FlowState Nat :=
  (driverStep c9Model c9Ops (setChanged c9State 0) 0).stateOf

/-- The cursor after the first worklist iteration. -/
def c9G2 : Nat :=
  (driverStep c9Model c9Ops (setChanged c9State 0) 0).guessOf

/-- The driver state after the second worklist iteration (pc 1 processed):
pc 0 and pc 2 are both marked changed. -/
def c9St3 : FlowState Nat :=
  (driverStep c9Model c9Ops c9St2 c9G2).stateOf

/-- The cursor after the second worklist iteration (it is 2). -/
def c9G3 : Nat :=
  (driverStep c9Model c9Ops c9St2 c9G2).guessOf

/-- Claim C9 (counterexample): after two reachable worklist iterations both
pc 0 and pc 2 are marked changed and the cursor is 2, and the selection step
picks pc 2 with the cursor, not the globally lowest changed index 0 - so the
driver does not always select the lowest-indexed changed instruction. -/
theorem driver_lowest_changed_counterexample :
    (driverStep c9Model c9Ops (setChanged c9State 0) 0).isRunning = true ∧
    (driverStep c9Model c9Ops c9St2 c9G2).isRunning = true ∧
    (c9St3.flags 0).changed = true ∧
    (c9St3.flags 1).changed = false ∧
    selectChanged c9St3.flags c9Model.insnsSize c9G3 = some (2, 2) := by
  refine ⟨rfl, rfl, rfl, rfl, rfl⟩

/-- A state with no changed instruction, for the claim C9 witness. -/
def c9Done : FlowState Nat where
  flags := fun _ => {}
  table := fun _ => 0
  workLine := 0
  savedLine := 0
  failures := emptyFail

/-- Witness for the amended claim C9 theorem: at the reachable state after
two iterations the selection facts hold concretely for pc 2 and cursor 2,
and on a state with nothing changed the driver reports done. -/
theorem driver_selection_amended_witness :
    ((c9St3.flags 2).changed = true ∧ 2 ≤ c9G3) ∧
    driverStep c9Model c9Ops c9Done 0 = .done c9Done :=
  ⟨⟨((driver_selection_amended c9Model c9Ops c9St3 c9G3).1 2 2 rfl).2.1,
    ((driver_selection_amended c9Model c9Ops c9St3 c9G3).1 2 2 rfl).2.2.1⟩,
   (driver_selection_amended c9Model c9Ops c9Done 0).2.1.mpr
     (fun _ _ => rfl)⟩

/-! ### Claim C1: termination of the code-flow fixed-point driver

RegisterLine::MergeRegisters lives in register_line.cc, which is absent from
src/; the spec (4.1, 8) describes the per-register type lattice as finite in
height with merges only moving upward.  We model this with an abstract rank
on lines that is bounded by a height H and strictly increases whenever a
merge changes the line, and prove the worklist loop of CodeFlowVerifyMethod
terminates within a fuel bounded by an explicit measure of the initial
state. -/

/-- The termination weight of one pc: a large first-touch budget, the
remaining lattice headroom of its saved line, and a changed-mark budget that
shrinks toward the end of the method. -/
def pcWeight {Line : Type} (rank : Line → Nat) (H n : Nat)
    (st : FlowState Line) (pc : Nat) : Nat :=
  (if (st.flags pc).visited || (st.flags pc).changed then 0
   else (n + 1) * H + n + 1) +
  (n + 1) * (H - rank (st.table pc)) +
  (if (st.flags pc).changed then n - pc else 0)

/-- The termination measure of a driver state: the sum of all pc weights. -/
def flowMeasure {Line : Type} (rank : Line → Nat) (H n : Nat)
    (st : FlowState Line) : Nat :=
  (Finset.range n).sum (pcWeight rank H n st)

/-- The pc weight only reads the flags and saved line of its pc. -/
theorem pcWeight_congr {Line : Type} (rank : Line → Nat) (H n : Nat)
    (st st2 : FlowState Line) (pc : Nat)
    (hf : st2.flags pc = st.flags pc) (ht : st2.table pc = st.table pc) :
    pcWeight rank H n st2 pc = pcWeight rank H n st pc := by
  simp [pcWeight, hf, ht]

/-- The measure only reads the flags and the saved-line table. -/
theorem flowMeasure_congr {Line : Type} (rank : Line → Nat) (H n : Nat)
    (st st2 : FlowState Line)
    (hf : st2.flags = st.flags) (ht : st2.table = st.table) :
    flowMeasure rank H n st2 = flowMeasure rank H n st := by
  unfold flowMeasure
  exact Finset.sum_congr rfl
    (fun pc _ => pcWeight_congr rank H n st st2 pc (by rw [hf]) (by rw [ht]))

/-- A state change localized to one pc moves the measure by at most the
weight change at that pc. -/
theorem flowMeasure_le_of_single {Line : Type} (rank : Line → Nat)
    (H n t d : Nat) (st st2 : FlowState Line)
    (hagree : ∀ pc, pc ≠ t →
      st2.flags pc = st.flags pc ∧ st2.table pc = st.table pc)
    (ht : pcWeight rank H n st2 t ≤ pcWeight rank H n st t + d) :
    flowMeasure rank H n st2 ≤ flowMeasure rank H n st + d := by
  unfold flowMeasure
  by_cases hmem : t ∈ Finset.range n
  · have hsame : (Finset.sum ((Finset.range n).erase t)
        (pcWeight rank H n st2))
        = Finset.sum ((Finset.range n).erase t) (pcWeight rank H n st) :=
      Finset.sum_congr rfl (fun pc hpc => by
        obtain ⟨h1, h2⟩ := hagree pc (Finset.ne_of_mem_erase hpc)
        exact pcWeight_congr rank H n st st2 pc h1 h2)
    calc (Finset.range n).sum (pcWeight rank H n st2)
        = Finset.sum ((Finset.range n).erase t) (pcWeight rank H n st2)
            + pcWeight rank H n st2 t :=
          (Finset.sum_erase_add _ _ hmem).symm
      _ = Finset.sum ((Finset.range n).erase t) (pcWeight rank H n st)
            + pcWeight rank H n st2 t := by rw [hsame]
      _ ≤ Finset.sum ((Finset.range n).erase t) (pcWeight rank H n st)
            + (pcWeight rank H n st t + d) := Nat.add_le_add_left ht _
      _ = (Finset.range n).sum (pcWeight rank H n st) + d := by
          rw [← Nat.add_assoc, Finset.sum_erase_add _ _ hmem]
  · have hsame : (Finset.sum (Finset.range n) (pcWeight rank H n st2))
        = Finset.sum (Finset.range n) (pcWeight rank H n st) :=
      Finset.sum_congr rfl (fun pc hpc => by
        obtain ⟨h1, h2⟩ := hagree pc (fun hne => hmem (hne ▸ hpc))
        exact pcWeight_congr rank H n st st2 pc h1 h2)
    rw [hsame]
    exact Nat.le_add_right _ _

/-- A state change localized to one pc that lowers its weight by exactly d
lowers the measure by exactly d. -/
theorem flowMeasure_exchange {Line : Type} (rank : Line → Nat)
    (H n t d : Nat) (st st2 : FlowState Line) (hmem : t < n)
    (hagree : ∀ pc, pc ≠ t →
      st2.flags pc = st.flags pc ∧ st2.table pc = st.table pc)
    (ht : pcWeight rank H n st2 t + d = pcWeight rank H n st t) :
    flowMeasure rank H n st2 + d = flowMeasure rank H n st := by
  unfold flowMeasure
  have hmem2 : t ∈ Finset.range n := Finset.mem_range.mpr hmem
  have hsame : (Finset.sum ((Finset.range n).erase t)
      (pcWeight rank H n st2))
      = Finset.sum ((Finset.range n).erase t) (pcWeight rank H n st) :=
    Finset.sum_congr rfl (fun pc hpc => by
      obtain ⟨h1, h2⟩ := hagree pc (Finset.ne_of_mem_erase hpc)
      exact pcWeight_congr rank H n st st2 pc h1 h2)
  calc (Finset.range n).sum (pcWeight rank H n st2) + d
      = Finset.sum ((Finset.range n).erase t) (pcWeight rank H n st2)
          + pcWeight rank H n st2 t + d := by
        rw [Finset.sum_erase_add _ _ hmem2]
    _ = Finset.sum ((Finset.range n).erase t) (pcWeight rank H n st)
          + (pcWeight rank H n st2 t + d) := by rw [hsame, Nat.add_assoc]
    _ = Finset.sum ((Finset.range n).erase t) (pcWeight rank H n st)
          + pcWeight rank H n st t := by rw [ht]
    _ = (Finset.range n).sum (pcWeight rank H n st) :=
        Finset.sum_erase_add _ _ hmem2


/-- UpdateRegisters never clears a changed flag. -/
theorem updateRegisters_changed {Line : Type} [DecidableEq Line]
    (M : MethodModel Line) (ops : LineOps Line) (st : FlowState Line)
    (t : Nat) (ml : Line) (uml : Bool) (p : Nat)
    (hp : (st.flags p).changed = true) :
    (((updateRegisters M ops st t ml uml).1.flags p).changed) = true := by
  by_cases hpt : p = t
  · subst hpt
    simp only [updateRegisters, setChanged]
    repeat' split
    all_goals simp_all [Function.update_same]
  · rw [(updateRegisters_preserves_other M ops st t ml uml p hpt).2]
    exact hp

/-- A successful UpdateRegisters leaves its target pc in one of three
shapes: untouched, first-touch (newly marked changed), or merged with a
strictly changed line and newly marked changed. -/
theorem updateRegisters_at_t {Line : Type} [DecidableEq Line]
    (M : MethodModel Line) (ops : LineOps Line) (st : FlowState Line)
    (t : Nat) (ml : Line) (uml : Bool) (st2 : FlowState Line)
    (ml2 : Line)
    (heq : updateRegisters M ops st t ml uml = (st2, true, ml2)) :
    (st2.flags t = st.flags t ∧ st2.table t = st.table t) ∨
    (((st.flags t).visited || (st.flags t).changed) = false ∧
      st2.flags t = { st.flags t with changed := true }) ∨
    (st2.flags t = { st.flags t with changed := true } ∧
      st2.table t = ops.merge (st.table t) ml ∧
      ops.merge (st.table t) ml ≠ st.table t ∧
      ((st.flags t).visited || (st.flags t).changed) = true) := by
  simp only [updateRegisters, setChanged] at heq
  repeat' split at heq
  all_goals cases heq
  all_goals simp_all [Function.update_same, fail_badClassHard_hard]
  all_goals
    by_cases hv : (st.flags t).visited = true
  all_goals simp_all


/-- A successful UpdateRegisters never increases the measure: a first touch
spends the first-touch budget, and a merge that changes the line climbs the
bounded lattice, paying for the new changed mark. -/
theorem updateRegisters_measure {Line : Type} [DecidableEq Line]
    (M : MethodModel Line) (ops : LineOps Line) (rank : Line → Nat)
    (H n : Nat) (st : FlowState Line) (t : Nat) (ml : Line) (uml : Bool)
    (st2 : FlowState Line) (ml2 : Line)
    (hrank : ∀ l, rank l ≤ H)
    (hmerge : ∀ a b, ops.merge a b ≠ a → rank a < rank (ops.merge a b))
    (heq : updateRegisters M ops st t ml uml = (st2, true, ml2)) :
    flowMeasure rank H n st2 ≤ flowMeasure rank H n st := by
  have hagree : ∀ pc, pc ≠ t →
      st2.flags pc = st.flags pc ∧ st2.table pc = st.table pc := by
    intro pc hpc
    have h := updateRegisters_preserves_other M ops st t ml uml pc hpc
    rw [heq] at h
    exact ⟨h.2, h.1⟩
  have hW : pcWeight rank H n st2 t ≤ pcWeight rank H n st t + 0 := by
    rcases updateRegisters_at_t M ops st t ml uml st2 ml2 heq with
      ⟨hf, ht2⟩ | ⟨hun, hf⟩ | ⟨hf, ht2, hne, htouch⟩
    · rw [pcWeight_congr rank H n st st2 t hf ht2]
      omega
    · have hXle : (n + 1) * (H - rank (st2.table t)) ≤ (n + 1) * H :=
        Nat.mul_le_mul_left _ (Nat.sub_le _ _)
      obtain ⟨hv, hc⟩ := Bool.or_eq_false_iff.mp hun
      simp only [pcWeight, hf, hv, hc, Bool.or_true, Bool.or_false, if_true,
        if_false, Bool.false_eq_true]
      set X := (n + 1) * (H - rank (st2.table t))
      set Y := (n + 1) * (H - rank (st.table t))
      set K := (n + 1) * H
      omega
    · have hlt : rank (st.table t) < rank (ops.merge (st.table t) ml) :=
        hmerge (st.table t) ml hne
      have hle : rank (ops.merge (st.table t) ml) ≤ H := hrank _
      have hkey : H - rank (ops.merge (st.table t) ml) + 1
          ≤ H - rank (st.table t) := by omega
      have hmul : (n + 1) * (H - rank (ops.merge (st.table t) ml)) + (n + 1)
          ≤ (n + 1) * (H - rank (st.table t)) := by
        calc (n + 1) * (H - rank (ops.merge (st.table t) ml)) + (n + 1)
            = (n + 1) * (H - rank (ops.merge (st.table t) ml) + 1) := by
              rw [Nat.mul_add, Nat.mul_one]
          _ ≤ (n + 1) * (H - rank (st.table t)) :=
              Nat.mul_le_mul_left _ hkey
      simp only [pcWeight, hf, ht2, htouch, Bool.or_true, if_true]
      set X := (n + 1) * (H - rank (ops.merge (st.table t) ml))
      set Y := (n + 1) * (H - rank (st.table t))
      split
      all_goals omega
  have hfin := flowMeasure_le_of_single rank H n t 0 st st2 hagree hW
  simpa using hfin


/-- The branch propagation never clears a changed flag. -/
theorem branchPhase_changed {Line : Type} [DecidableEq Line]
    (M : MethodModel Line) (ops : LineOps Line) (st : FlowState Line)
    (i : Nat) (f : OpFlags) (bl : Option Line) (p : Nat)
    (hp : (st.flags p).changed = true) :
    (((branchPhase M ops st i f bl).1.flags p).changed) = true := by
  simp only [branchPhase]
  repeat' split
  all_goals first
    | exact hp
    | exact updateRegisters_changed M ops st _ _ _ p hp

/-- The switch-target loop never clears a changed flag. -/
theorem switchUpdates_changed {Line : Type} [DecidableEq Line]
    (M : MethodModel Line) (ops : LineOps Line) :
    ∀ (l : List Nat) (st : FlowState Line) (p : Nat),
      (st.flags p).changed = true →
      (((switchUpdates M ops st l).1.flags p).changed) = true
  | [], st, p, hp => hp
  | t :: rest, st, p, hp => by
      simp only [switchUpdates]
      repeat' split
      all_goals first
        | exact hp
        | exact updateRegisters_changed M ops st _ _ _ p hp
        | exact switchUpdates_changed M ops rest _ p
            (updateRegisters_changed M ops st _ _ _ p hp)

/-- The switch propagation never clears a changed flag. -/
theorem switchPhase_changed {Line : Type} [DecidableEq Line]
    (M : MethodModel Line) (ops : LineOps Line) (st : FlowState Line)
    (i : Nat) (f : OpFlags) (p : Nat)
    (hp : (st.flags p).changed = true) :
    (((switchPhase M ops st i f).1.flags p).changed) = true := by
  simp only [switchPhase]
  split
  · exact switchUpdates_changed M ops _ st p hp
  · exact hp

/-- The handler loop never clears a changed flag. -/
theorem handlerUpdates_changed {Line : Type} [DecidableEq Line]
    (M : MethodModel Line) (ops : LineOps Line) :
    ∀ (l : List Handler) (st : FlowState Line) (p : Nat),
      (st.flags p).changed = true →
      (((handlerUpdates M ops st l).1.flags p).changed) = true
  | [], st, p, hp => hp
  | h :: rest, st, p, hp => by
      simp only [handlerUpdates]
      split
      · exact handlerUpdates_changed M ops rest _ p
          (updateRegisters_changed M ops st _ _ _ p hp)
      · exact updateRegisters_changed M ops st _ _ _ p hp

/-- The exception propagation never clears a changed flag. -/
theorem excPhase_changed {Line : Type} [DecidableEq Line]
    (M : MethodModel Line) (ops : LineOps Line) (st : FlowState Line)
    (i : Nat) (f : OpFlags) (mon : Bool) (p : Nat)
    (hp : (st.flags p).changed = true) :
    (((excPhase M ops st i f mon).1.flags p).changed) = true := by
  simp only [excPhase]
  repeat' split
  all_goals first
    | exact hp
    | exact handlerUpdates_changed M ops _ st p hp

/-- The fallthrough merge never clears a changed flag. -/
theorem continueTail_changed {Line : Type} [DecidableEq Line]
    (M : MethodModel Line) (ops : LineOps Line) (st : FlowState Line)
    (next : Nat) (p : Nat)
    (hp : (st.flags p).changed = true) :
    (((continueTail M ops st next).1.flags p).changed) = true := by
  simp only [continueTail, setChanged]
  repeat' split
  all_goals first
    | exact updateRegisters_changed M ops st _ _ _ p hp
    | skip
  by_cases hpn : p = next
  · subst hpn; simp [Function.update_same]
  · simp [Function.update_noteq hpn, hp]

/-- The fallthrough propagation never clears a changed flag. -/
theorem continuePhase_changed {Line : Type} [DecidableEq Line]
    (M : MethodModel Line) (ops : LineOps Line) (st : FlowState Line)
    (i : Nat) (f : OpFlags) (fl : Option Line) (p : Nat)
    (hp : (st.flags p).changed = true) :
    (((continuePhase M ops st i f fl).1.flags p).changed) = true := by
  simp only [continuePhase]
  repeat' split
  all_goals first
    | exact hp
    | exact continueTail_changed M ops _ _ p hp


/-- Projection form of the UpdateRegisters measure bound. -/
theorem updateRegisters_measure_proj {Line : Type} [DecidableEq Line]
    (M : MethodModel Line) (ops : LineOps Line) (rank : Line → Nat)
    (H n : Nat) (st : FlowState Line) (t : Nat) (ml : Line) (uml : Bool)
    (hrank : ∀ l, rank l ≤ H)
    (hmerge : ∀ a b, ops.merge a b ≠ a → rank a < rank (ops.merge a b))
    (hsucc : (updateRegisters M ops st t ml uml).2.1 = true) :
    flowMeasure rank H n (updateRegisters M ops st t ml uml).1
      ≤ flowMeasure rank H n st := by
  apply updateRegisters_measure M ops rank H n st t ml uml
    (updateRegisters M ops st t ml uml).1
    (updateRegisters M ops st t ml uml).2.2 hrank hmerge
  rw [← hsucc]

/-- A successful branch propagation never increases the measure. -/
theorem branchPhase_measure {Line : Type} [DecidableEq Line]
    (M : MethodModel Line) (ops : LineOps Line) (rank : Line → Nat)
    (H n : Nat) (st : FlowState Line) (i : Nat) (f : OpFlags)
    (bl : Option Line)
    (hrank : ∀ l, rank l ≤ H)
    (hmerge : ∀ a b, ops.merge a b ≠ a → rank a < rank (ops.merge a b))
    (hsucc : (branchPhase M ops st i f bl).2 = true) :
    flowMeasure rank H n (branchPhase M ops st i f bl).1
      ≤ flowMeasure rank H n st := by
  by_cases hb : f.branch = true
  · by_cases hm : (!M.notMoveExcOrResultAt (M.branchTargetAt i)) = true
    · simp only [branchPhase, hb, hm, if_true] at hsucc
      cases hsucc
    · simp only [branchPhase, hb, hm, Bool.false_eq_true, if_true, if_false] at hsucc ⊢
      exact updateRegisters_measure_proj M ops rank H n st _ _ _
        hrank hmerge hsucc
  · simp only [branchPhase, hb, Bool.false_eq_true, if_false]
    exact le_refl _

/-- A successful switch-target loop never increases the measure. -/
theorem switchUpdates_measure {Line : Type} [DecidableEq Line]
    (M : MethodModel Line) (ops : LineOps Line) (rank : Line → Nat)
    (H n : Nat)
    (hrank : ∀ l, rank l ≤ H)
    (hmerge : ∀ a b, ops.merge a b ≠ a → rank a < rank (ops.merge a b)) :
    ∀ (l : List Nat) (st : FlowState Line),
      (switchUpdates M ops st l).2 = true →
      flowMeasure rank H n (switchUpdates M ops st l).1
        ≤ flowMeasure rank H n st
  | [], st, _ => le_refl _
  | t :: rest, st, hsucc => by
      by_cases hm : (!M.notMoveExcOrResultAt t) = true
      · simp only [switchUpdates, hm, if_true] at hsucc
        cases hsucc
      · by_cases hr : (updateRegisters M ops st t st.workLine false).2.1 = true
        · simp only [switchUpdates, hm, Bool.false_eq_true, if_false, hr,
            if_true] at hsucc ⊢
          exact le_trans
            (switchUpdates_measure M ops rank H n hrank hmerge rest _ hsucc)
            (updateRegisters_measure_proj M ops rank H n st _ _ _
              hrank hmerge hr)
        · simp only [switchUpdates, hm, Bool.false_eq_true, if_false, hr,
            if_true] at hsucc

/-- A successful switch propagation never increases the measure. -/
theorem switchPhase_measure {Line : Type} [DecidableEq Line]
    (M : MethodModel Line) (ops : LineOps Line) (rank : Line → Nat)
    (H n : Nat) (st : FlowState Line) (i : Nat) (f : OpFlags)
    (hrank : ∀ l, rank l ≤ H)
    (hmerge : ∀ a b, ops.merge a b ≠ a → rank a < rank (ops.merge a b))
    (hsucc : (switchPhase M ops st i f).2 = true) :
    flowMeasure rank H n (switchPhase M ops st i f).1
      ≤ flowMeasure rank H n st := by
  by_cases hs : f.switchBr = true
  · simp only [switchPhase, hs, if_true] at hsucc ⊢
    exact switchUpdates_measure M ops rank H n hrank hmerge _ st hsucc
  · simp only [switchPhase, hs, Bool.false_eq_true, if_false]
    exact le_refl _

/-- A successful handler loop never increases the measure. -/
theorem handlerUpdates_measure {Line : Type} [DecidableEq Line]
    (M : MethodModel Line) (ops : LineOps Line) (rank : Line → Nat)
    (H n : Nat)
    (hrank : ∀ l, rank l ≤ H)
    (hmerge : ∀ a b, ops.merge a b ≠ a → rank a < rank (ops.merge a b)) :
    ∀ (l : List Handler) (st : FlowState Line),
      (handlerUpdates M ops st l).2 = true →
      flowMeasure rank H n (handlerUpdates M ops st l).1
        ≤ flowMeasure rank H n st
  | [], st, _ => le_refl _
  | h :: rest, st, hsucc => by
      by_cases hr : (updateRegisters M ops st h.addr st.savedLine false).2.1
          = true
      · simp only [handlerUpdates, hr, if_true] at hsucc ⊢
        exact le_trans
          (handlerUpdates_measure M ops rank H n hrank hmerge rest _ hsucc)
          (updateRegisters_measure_proj M ops rank H n st _ _ _
            hrank hmerge hr)
      · simp only [handlerUpdates, hr, Bool.false_eq_true, if_false] at hsucc

/-- A successful exception propagation never increases the measure. -/
theorem excPhase_measure {Line : Type} [DecidableEq Line]
    (M : MethodModel Line) (ops : LineOps Line) (rank : Line → Nat)
    (H n : Nat) (st : FlowState Line) (i : Nat) (f : OpFlags) (mon : Bool)
    (hrank : ∀ l, rank l ≤ H)
    (hmerge : ∀ a b, ops.merge a b ≠ a → rank a < rank (ops.merge a b))
    (hsucc : (excPhase M ops st i f mon).2 = true) :
    flowMeasure rank H n (excPhase M ops st i f mon).1
      ≤ flowMeasure rank H n st := by
  by_cases hc : (f.canThrow && (st.flags i).inTry) = true
  · by_cases hr : (handlerUpdates M ops st (M.handlersAt i)).2 = true
    · have hbase := handlerUpdates_measure M ops rank H n hrank hmerge
        (M.handlersAt i) st hr
      simp only [excPhase, hc, if_true, hr, Bool.not_true, Bool.false_eq_true,
        if_false]
      repeat' split
      all_goals first
        | exact hbase
        | exact le_trans (le_of_eq (flowMeasure_congr rank H n _ _ rfl rfl))
            hbase
    · exfalso
      apply hr
      simp only [excPhase, hc, if_true] at hsucc
      revert hsucc
      split
      all_goals intro hsucc
      all_goals simp_all
  · simp only [excPhase, hc, Bool.false_eq_true, if_false]
    exact le_refl _

/-- A successful fallthrough merge increases the measure by at most the
changed-mark budget of the next pc (the slotless changed-mark case). -/
theorem continueTail_measure {Line : Type} [DecidableEq Line]
    (M : MethodModel Line) (ops : LineOps Line) (rank : Line → Nat)
    (H n : Nat) (st : FlowState Line) (next : Nat)
    (hrank : ∀ l, rank l ≤ H)
    (hmerge : ∀ a b, ops.merge a b ≠ a → rank a < rank (ops.merge a b))
    (hsucc : (continueTail M ops st next).2 = true) :
    flowMeasure rank H n (continueTail M ops st next).1
      ≤ flowMeasure rank H n st + (n - next) := by
  by_cases hslot : M.hasSlotAt next = true
  · by_cases hr : (updateRegisters M ops st next st.workLine true).2.1 = true
    · simp only [continueTail, hslot, if_true, hr]
      refine le_trans (le_of_eq (flowMeasure_congr rank H n _ _ rfl rfl)) ?_
      exact le_trans
        (updateRegisters_measure_proj M ops rank H n st _ _ _
          hrank hmerge hr)
        (Nat.le_add_right _ _)
    · simp only [continueTail, hslot, if_true, hr, Bool.false_eq_true,
        if_false] at hsucc
  · simp only [continueTail, hslot, Bool.false_eq_true, if_false]
    apply flowMeasure_le_of_single rank H n next (n - next)
    · intro pc hpc
      simp [setChanged, Function.update_noteq hpc]
    · simp only [pcWeight, setChanged, Function.update_same, Bool.or_true,
        if_true]
      set T := (n + 1) * (H - rank (st.table next))
      split
      all_goals split
      all_goals omega

/-- A successful fallthrough propagation increases the measure by at most
the changed-mark budget of the fallthrough pc. -/
theorem continuePhase_measure {Line : Type} [DecidableEq Line]
    (M : MethodModel Line) (ops : LineOps Line) (rank : Line → Nat)
    (H n : Nat) (st : FlowState Line) (i : Nat) (f : OpFlags)
    (fl : Option Line)
    (hrank : ∀ l, rank l ≤ H)
    (hmerge : ∀ a b, ops.merge a b ≠ a → rank a < rank (ops.merge a b))
    (hsucc : (continuePhase M ops st i f fl).2 = true) :
    flowMeasure rank H n (continuePhase M ops st i f fl).1
      ≤ flowMeasure rank H n st + (n - (i + M.sizeAt i)) := by
  by_cases hcont : f.cont = true
  · by_cases hb1 : M.insnsSize ≤ i + M.sizeAt i
    · simp only [continuePhase] at hsucc
      rw [if_pos hcont, if_pos hb1] at hsucc
      simp at hsucc
    · by_cases hmv : M.notMoveExcAt (i + M.sizeAt i) = true
      · have hmv2 : ¬((!M.notMoveExcAt (i + M.sizeAt i)) = true) := by
          simp [hmv]
        have key : ∀ st1 : FlowState Line, st1.flags = st.flags →
            st1.table = st.table →
            (continueTail M ops st1 (i + M.sizeAt i)).2 = true →
            flowMeasure rank H n (continueTail M ops st1 (i + M.sizeAt i)).1
              ≤ flowMeasure rank H n st + (n - (i + M.sizeAt i)) := by
          intro st1 hfl htab hs1
          refine le_trans
            (continueTail_measure M ops rank H n st1 _ hrank hmerge hs1) ?_
          rw [flowMeasure_congr rank H n st st1 hfl htab]
        rcases fl with _ | l
        · by_cases hret : ((st.flags (i + M.sizeAt i)).retInsn) = true
          · simp only [continuePhase] at hsucc ⊢
            rw [if_pos hcont, if_neg hb1, if_neg hmv2, if_pos hret]
              at hsucc ⊢
            exact key _ rfl rfl hsucc
          · simp only [continuePhase] at hsucc ⊢
            rw [if_pos hcont, if_neg hb1, if_neg hmv2, if_neg hret]
              at hsucc ⊢
            exact key _ rfl rfl hsucc
        · by_cases hret : ((st.flags (i + M.sizeAt i)).retInsn) = true
          · simp only [continuePhase] at hsucc ⊢
            rw [if_pos hcont, if_neg hb1, if_neg hmv2, if_pos hret]
              at hsucc ⊢
            exact key _ rfl rfl hsucc
          · simp only [continuePhase] at hsucc ⊢
            rw [if_pos hcont, if_neg hb1, if_neg hmv2, if_neg hret]
              at hsucc ⊢
            exact key _ rfl rfl hsucc
      · have hmv3 : (!M.notMoveExcAt (i + M.sizeAt i)) = true := by
          simp [Bool.not_eq_true] at hmv
          simp [hmv]
        simp only [continuePhase] at hsucc
        rw [if_pos hcont, if_neg hb1, if_pos hmv3] at hsucc
        simp at hsucc
  · simp only [continuePhase, hcont, Bool.false_eq_true, if_false]
    exact Nat.le_add_right _ _


/-- The four successor propagations in sequence increase the measure by at
most the changed-mark budget of the fallthrough pc. -/
theorem phases_measure {Line : Type} [DecidableEq Line]
    (M : MethodModel Line) (ops : LineOps Line) (rank : Line → Nat)
    (H n : Nat) (STB : FlowState Line) (i : Nat) (F : OpFlags)
    (obl : Option Line) (mon : Bool) (fl : Option Line)
    (hrank : ∀ l, rank l ≤ H)
    (hmerge : ∀ a b, ops.merge a b ≠ a → rank a < rank (ops.merge a b))
    (hB : (branchPhase M ops STB i F obl).2 = true)
    (hS : (switchPhase M ops (branchPhase M ops STB i F obl).1 i F).2 = true)
    (hE : (excPhase M ops
        (switchPhase M ops (branchPhase M ops STB i F obl).1 i F).1
        i F mon).2 = true)
    (hC : (continuePhase M ops (excPhase M ops
        (switchPhase M ops (branchPhase M ops STB i F obl).1 i F).1
        i F mon).1 i F fl).2 = true) :
    flowMeasure rank H n (continuePhase M ops (excPhase M ops
        (switchPhase M ops (branchPhase M ops STB i F obl).1 i F).1
        i F mon).1 i F fl).1
      ≤ flowMeasure rank H n STB + (n - (i + M.sizeAt i)) := by
  have m1 := branchPhase_measure M ops rank H n STB i F obl hrank hmerge hB
  have m2 := switchPhase_measure M ops rank H n _ i F hrank hmerge hS
  have m3 := excPhase_measure M ops rank H n _ i F mon hrank hmerge hE
  have m4 := continuePhase_measure M ops rank H n _ i F fl hrank hmerge hC
  omega

/-- The four successor propagations never clear a changed flag. -/
theorem phases_changed {Line : Type} [DecidableEq Line]
    (M : MethodModel Line) (ops : LineOps Line) (STB : FlowState Line)
    (i : Nat) (F : OpFlags) (obl : Option Line) (mon : Bool)
    (fl : Option Line) (p : Nat)
    (hp : (STB.flags p).changed = true) :
    (((continuePhase M ops (excPhase M ops
        (switchPhase M ops (branchPhase M ops STB i F obl).1 i F).1
        i F mon).1 i F fl).1.flags p).changed) = true :=
  continuePhase_changed M ops _ i F fl p
    (excPhase_changed M ops _ i F mon p
      (switchPhase_changed M ops _ i F p
        (branchPhase_changed M ops STB i F obl p hp)))

/-- Processing one instruction successfully increases the measure by at most
the changed-mark budget of its fallthrough pc. -/
theorem codeFlowVerifyInstruction_measure {Line : Type} [DecidableEq Line]
    (M : MethodModel Line) (ops : LineOps Line) (rank : Line → Nat)
    (H : Nat) (st : FlowState Line) (i g : Nat) (st6 : FlowState Line)
    (g2 : Nat)
    (hrank : ∀ l, rank l ≤ H)
    (hmerge : ∀ a b, ops.merge a b ≠ a → rank a < rank (ops.merge a b))
    (heq : codeFlowVerifyInstruction M ops st i g = .ok st6 g2) :
    flowMeasure rank H M.insnsSize st6
      ≤ flowMeasure rank H M.insnsSize st
        + (M.insnsSize - (i + M.sizeAt i)) := by
  simp only [codeFlowVerifyInstruction] at heq
  set SNAP := (if (((M.opFlagsAt i).canThrow || M.compatThrowAt i)
        && (st.flags i).inTry) = true
      then { st with savedLine := st.workLine } else st) with hSNAP
  have hSf : SNAP.flags = st.flags := by rw [hSNAP]; split <;> rfl
  have hSt : SNAP.table = st.table := by rw [hSNAP]; split <;> rfl
  set RES := dispatchInsn ops (M.kindAt i) i (M.opFlagsAt i) SNAP.workLine
    with hRES
  set F1 := (if RES.2.hardFail = true
      then fail VerifyError.badClassHard SNAP.failures else SNAP.failures)
    with hF1
  set OPF := (if RES.2.runtimeThrow = true then ({ canThrow := true } : OpFlags)
      else RES.1) with hOPF
  set STB := ({ SNAP with workLine := RES.2.workLine, failures := F1 } : FlowState Line)
  set P1 := branchPhase M ops STB i OPF RES.2.branchLine with hP1
  set P2 := switchPhase M ops P1.1 i OPF with hP2
  set P3 := excPhase M ops P2.1 i OPF (M.kindAt i).isMonEnter with hP3
  set P4 := continuePhase M ops P3.1 i OPF RES.2.fallthroughLine with hP4
  split at heq
  · exact StepResult.noConfusion heq
  rename_i hHard
  split at heq
  · exact StepResult.noConfusion heq
  rename_i hB
  split at heq
  · exact StepResult.noConfusion heq
  rename_i hS
  split at heq
  · exact StepResult.noConfusion heq
  rename_i hE
  split at heq
  · exact StepResult.noConfusion heq
  rename_i hC
  repeat' split at heq
  all_goals cases heq
  all_goals
    refine le_trans (le_of_eq (flowMeasure_congr rank H M.insnsSize
      P4.1 _ rfl rfl)) ?_
  all_goals
    have hB2 : (branchPhase M ops STB i OPF RES.2.branchLine).2 = true := by
      rw [← hP1]
      simpa using hB
  all_goals
    have hS2 : (switchPhase M ops
        (branchPhase M ops STB i OPF RES.2.branchLine).1 i OPF).2 = true := by
      rw [← hP1, ← hP2]
      simpa using hS
  all_goals
    have hE2 : (excPhase M ops (switchPhase M ops
        (branchPhase M ops STB i OPF RES.2.branchLine).1 i OPF).1 i OPF
        (M.kindAt i).isMonEnter).2 = true := by
      rw [← hP1, ← hP2, ← hP3]
      simpa using hE
  all_goals
    have hC2 : (continuePhase M ops (excPhase M ops (switchPhase M ops
        (branchPhase M ops STB i OPF RES.2.branchLine).1 i OPF).1 i OPF
        (M.kindAt i).isMonEnter).1 i OPF RES.2.fallthroughLine).2 = true := by
      rw [← hP1, ← hP2, ← hP3, ← hP4]
      simpa using hC
  all_goals
    have hph := phases_measure M ops rank H M.insnsSize STB i OPF
      RES.2.branchLine (M.kindAt i).isMonEnter RES.2.fallthroughLine
      hrank hmerge hB2 hS2 hE2 hC2
  all_goals
    rw [← hP1, ← hP2, ← hP3, ← hP4] at hph
  all_goals
    have hSTBm : flowMeasure rank H M.insnsSize STB
        = flowMeasure rank H M.insnsSize st :=
      flowMeasure_congr rank H M.insnsSize st STB hSf hSt
  all_goals omega

/-- Processing one instruction successfully never clears a changed flag. -/
theorem codeFlowVerifyInstruction_changed {Line : Type} [DecidableEq Line]
    (M : MethodModel Line) (ops : LineOps Line) (st : FlowState Line)
    (i g : Nat) (st6 : FlowState Line) (g2 : Nat) (p : Nat)
    (heq : codeFlowVerifyInstruction M ops st i g = .ok st6 g2)
    (hp : (st.flags p).changed = true) :
    ((st6.flags p).changed) = true := by
  simp only [codeFlowVerifyInstruction] at heq
  set SNAP := (if (((M.opFlagsAt i).canThrow || M.compatThrowAt i)
        && (st.flags i).inTry) = true
      then { st with savedLine := st.workLine } else st) with hSNAP
  have hSf : SNAP.flags = st.flags := by rw [hSNAP]; split <;> rfl
  set RES := dispatchInsn ops (M.kindAt i) i (M.opFlagsAt i) SNAP.workLine
    with hRES
  set F1 := (if RES.2.hardFail = true
      then fail VerifyError.badClassHard SNAP.failures else SNAP.failures)
    with hF1
  set OPF := (if RES.2.runtimeThrow = true then ({ canThrow := true } : OpFlags)
      else RES.1) with hOPF
  set STB := ({ SNAP with workLine := RES.2.workLine, failures := F1 } : FlowState Line)
  set P1 := branchPhase M ops STB i OPF RES.2.branchLine with hP1
  set P2 := switchPhase M ops P1.1 i OPF with hP2
  set P3 := excPhase M ops P2.1 i OPF (M.kindAt i).isMonEnter with hP3
  set P4 := continuePhase M ops P3.1 i OPF RES.2.fallthroughLine with hP4
  have hkey : ((P4.1.flags p).changed) = true := by
    rw [hP4, hP3, hP2, hP1]
    refine phases_changed M ops STB i OPF RES.2.branchLine
      (M.kindAt i).isMonEnter RES.2.fallthroughLine p ?_
    show ((SNAP.flags p).changed) = true
    rw [hSf]
    exact hp
  repeat' split at heq
  all_goals try exact StepResult.noConfusion heq
  all_goals cases heq
  all_goals exact hkey

/-- A selected instruction is in range and marked changed. -/
theorem selectChanged_some_facts (flags : Nat → InsnFlags) (n g i c : Nat)
    (h : selectChanged flags n g = some (i, c)) :
    i < n ∧ (flags i).changed = true := by
  unfold selectChanged at h
  rcases hscan : scanChanged flags n g with _ | k
  · rw [hscan] at h
    by_cases hg : g = 0
    · rw [if_neg (by simp [hg])] at h; cases h
    · rw [if_pos hg] at h
      rcases hscan0 : scanChanged flags n 0 with _ | k
      · rw [hscan0] at h; cases h
      · rw [hscan0] at h
        cases h
        obtain ⟨_, h2, h3, _⟩ :=
          scanChangedGo_some flags n _ 0 i hscan0
        exact ⟨h2, h3⟩
  · rw [hscan] at h
    cases h
    obtain ⟨_, h2, h3, _⟩ := scanChangedGo_some flags n _ g i hscan
    exact ⟨h2, h3⟩

/-- Every running worklist iteration strictly decreases the measure:
clearing the selected changed flag refunds more than the fallthrough mark
can cost, and every other propagation is paid for by the lattice climb or
the first-touch budget. -/
theorem driverStep_measure {Line : Type} [DecidableEq Line]
    (M : MethodModel Line) (ops : LineOps Line) (rank : Line → Nat)
    (H : Nat) (st : FlowState Line) (g : Nat) (st2 : FlowState Line)
    (g2 : Nat)
    (hrank : ∀ l, rank l ≤ H)
    (hmerge : ∀ a b, ops.merge a b ≠ a → rank a < rank (ops.merge a b))
    (hsize : ∀ pc, 1 ≤ M.sizeAt pc)
    (heq : driverStep M ops st g = .running st2 g2) :
    flowMeasure rank H M.insnsSize st2
      < flowMeasure rank H M.insnsSize st := by
  rcases hsel : selectChanged st.flags M.insnsSize g with _ | ⟨i, c⟩
  · unfold driverStep at heq
    rw [hsel] at heq
    cases heq
  · obtain ⟨hlt, hchg⟩ :=
      selectChanged_some_facts st.flags M.insnsSize g i c hsel
    have hstep : driverStep M ops st g
        = match codeFlowVerifyInstruction M ops
            (if (st.flags i).branchTarget = true
             then { st with workLine := st.table i } else st) i c with
          | .failed s => .failed s
          | .ok s gg => .running (markVisitedNotChanged s i) gg := by
      unfold driverStep
      rw [hsel]
      rfl
    rw [hstep] at heq
    split at heq
    · rename_i st3 hcf
      cases heq
    · rename_i st3 g3 hcf
      cases heq
      have hfl1 : (if (st.flags i).branchTarget = true
          then { st with workLine := st.table i } else st).flags
          = st.flags := by split <;> rfl
      have htb1 : (if (st.flags i).branchTarget = true
          then { st with workLine := st.table i } else st).table
          = st.table := by split <;> rfl
      have hm := codeFlowVerifyInstruction_measure M ops rank H _ i c st3 g2
        hrank hmerge hcf
      rw [flowMeasure_congr rank H M.insnsSize st _ hfl1 htb1] at hm
      have hchg3 : (st3.flags i).changed = true := by
        refine codeFlowVerifyInstruction_changed M ops _ i c st3 g2 i hcf ?_
        rw [hfl1]
        exact hchg
      have hexch : flowMeasure rank H M.insnsSize
            (markVisitedNotChanged st3 i) + (M.insnsSize - i)
          = flowMeasure rank H M.insnsSize st3 := by
        apply flowMeasure_exchange rank H M.insnsSize i (M.insnsSize - i)
          _ _ hlt
        · intro pc hpc
          exact ⟨by simp [markVisitedNotChanged, Function.update_noteq hpc],
            rfl⟩
        · simp only [pcWeight, markVisitedNotChanged, Function.update_same,
            hchg3, Bool.or_true, Bool.true_or, Bool.false_or, Bool.or_false,
            Bool.true_eq_false, if_true, if_false, Bool.false_eq_true]
          set T := (M.insnsSize + 1) * (H - rank (st3.table i))
          omega
      have hsz := hsize i
      omega

/-- The worklist loop finishes (verified or failed) once the fuel exceeds
the measure. -/
theorem driverLoop_terminates {Line : Type} [DecidableEq Line]
    (M : MethodModel Line) (ops : LineOps Line) (rank : Line → Nat)
    (H : Nat)
    (hrank : ∀ l, rank l ≤ H)
    (hmerge : ∀ a b, ops.merge a b ≠ a → rank a < rank (ops.merge a b))
    (hsize : ∀ pc, 1 ≤ M.sizeAt pc) :
    ∀ (fuel : Nat) (st : FlowState Line) (g : Nat),
      flowMeasure rank H M.insnsSize st < fuel →
      (driverLoop M ops fuel st g).isSome = true := by
  intro fuel
  induction fuel with
  | zero => intro st g h; omega
  | succ f ih =>
      intro st g h
      rw [driverLoop]
      rcases hstep : driverStep M ops st g with st2 | st2 | ⟨st2, g2⟩
      · simp
      · simp
      · have hd := driverStep_measure M ops rank H st g st2 g2
          hrank hmerge hsize hstep
        exact ih st2 g2 (by omega)


/-- Claim C1: on every method body with finitely many instructions (each of
positive size), the code-flow fixed-point driver terminates: with any line
rank bounded by a lattice height H for which a line-changing merge strictly
climbs, the worklist loop of CodeFlowVerifyMethod completes within a fuel
bound given by the explicit measure of the initial state, because
UpdateRegisters marks a successor changed only when the merge actually
altered its saved line (or on first touch). -/
theorem codeFlowVerifyMethod_terminates {Line : Type} [DecidableEq Line]
    (M : MethodModel Line) (ops : LineOps Line) (rank : Line → Nat)
    (H : Nat) (st0 : FlowState Line) (fuel : Nat)
    (hrank : ∀ l, rank l ≤ H)
    (hmerge : ∀ a b, ops.merge a b ≠ a → rank a < rank (ops.merge a b))
    (hsize : ∀ pc, 1 ≤ M.sizeAt pc)
    (hfuel : flowMeasure rank H M.insnsSize (setChanged st0 0) < fuel) :
    (codeFlowVerifyMethod M ops fuel st0).isSome = true := by
  unfold codeFlowVerifyMethod
  exact driverLoop_terminates M ops rank H hrank hmerge hsize fuel
    (setChanged st0 0) 0 hfuel

/-- Line operations for the claim C1 witness: lines form the two-point
lattice of booleans merged by disjunction. -/
def c1Ops : LineOps Bool where
  merge := fun a b => a || b
  mergeOk := fun _ _ => true
  monitorDepth := fun _ => 0
  pushMonitor := fun _ _ l => l
  popMonitor := fun _ l => l
  markAllConflicts := fun _ => false
  markAllConflictsExcept := fun _ l => l
  markAllConflictsExceptWide := fun _ l => l
  ctorReturnOk := fun _ => true

/-- The rank of a boolean line: its position in the two-point lattice. -/
def c1rank : Bool → Nat := fun b => if b then 1 else 0

/-- A one-instruction method (a return) for the claim C1 witness. -/
def c1Model : MethodModel Bool where
  insnsSize := 1
  sizeAt := fun _ => 1
  opFlagsAt := fun _ => { ret := true }
  kindAt := fun _ => .other (fun l => { workLine := l })
  compatThrowAt := fun _ => false
  branchTargetAt := fun _ => 0
  switchTargetsAt := fun _ => []
  handlersAt := fun _ => []
  retShapeAt := fun _ => .retVoid
  isInstanceCtor := false
  notMoveExcAt := fun _ => true
  notMoveExcOrResultAt := fun _ => true
  hasSlotAt := fun _ => false

/-- The initial state for the claim C1 witness. -/
def c1State : FlowState Bool where
  flags := fun _ => {}
  table := fun _ => false
  workLine := false
  savedLine := false
  failures := emptyFail

/-- Witness for the claim C1 theorem: on the concrete one-return method the
rank is bounded, disjunction climbs strictly, instruction sizes are
positive, and the driver completes within measure-plus-one fuel. -/
theorem codeFlowVerifyMethod_terminates_witness :
    (∀ l, c1rank l ≤ 1) ∧
    (∀ a b, c1Ops.merge a b ≠ a → c1rank a < c1rank (c1Ops.merge a b)) ∧
    (∀ pc, 1 ≤ c1Model.sizeAt pc) ∧
    (codeFlowVerifyMethod c1Model c1Ops
        (flowMeasure c1rank 1 c1Model.insnsSize (setChanged c1State 0) + 1)
        c1State).isSome = true :=
  ⟨by decide, by decide, fun _ => le_refl 1,
   codeFlowVerifyMethod_terminates c1Model c1Ops c1rank 1 c1State _
     (by decide) (by decide) (fun _ => le_refl 1) (Nat.lt_succ_self _)⟩

end Art
